import Mathlib

/-!
Verification development for the praxa-backend recurring-call scheduler.

The definitions below are a shallow embedding of the Python source:
  - `services/supabase_client.py` (schedule calculation, scheduled-call and
    call-log store operations),
  - `services/scheduler.py` (the dispatcher poll loop),
  - `main.py` (the Twilio status webhook and the schedule-sync endpoint).

Local wall-clock time is modelled as a number of seconds since a reference
Monday 00:00 in the user's timezone, so that Python's
`datetime.weekday()` (0 = Monday) is `(t / 86400) % 7`.  Timezone
conversion (`astimezone`) is modelled as subtraction of a fixed UTC offset.
Database rows are lists of records; a PostgREST `update().eq(...)` is a map
over the list.  Fallible operations return `Except Unit`.
-/

namespace Praxa

/-- Seconds in one day. -/
def secsPerDay : Nat := 86400

/-- Seconds in one week. -/
def secsPerWeek : Nat := 604800

/-- Python `datetime.weekday()` of a local instant: 0 = Monday … 6 = Sunday. -/
def pyWeekday (t : Nat) : Nat := (t / secsPerDay) % 7

/-- The weekday convention used in `checkin_schedule` entries
(0 = Sunday, 1 = Monday, …, 6 = Saturday) of a local instant. -/
def scheduleDay (t : Nat) : Nat := if pyWeekday t = 6 then 0 else pyWeekday t + 1

/-- Conversion of a local instant to a UTC instant, where `off` is the
timezone's fixed UTC offset in seconds (`utc = local - offset`, the
fixed-offset model of `astimezone(ZoneInfo("UTC"))`). -/
def utcOfLocal (off : Int) (t : Nat) : Int := (t : Int) - off

/-- One element of a user's `checkin_schedule` JSON list:
`{"day": …, "time": "HH:MM", …}`, each key possibly missing. -/
structure ScheduleEntry where
  day : Option Int
  time : Option String
deriving DecidableEq, Repr

/-- Splitting a character list on `:`, as Python's `time_str.split(":")`
does (an empty input yields one empty field). -/
def splitOnColon : List Char → List (List Char)
  | [] => [[]]
  | c :: rest =>
    match splitOnColon rest with
    | [] => if c = ':' then [[], []] else [[c]]
    | g :: gs => if c = ':' then [] :: g :: gs else (c :: g) :: gs

/-- Accumulator loop for reading a nonempty digit string as a number. -/
def digitsToNat : List Char → Nat → Option Nat
  | [], acc => some acc
  | c :: rest, acc =>
    if 48 ≤ c.toNat ∧ c.toNat ≤ 57 then
      digitsToNat rest (acc * 10 + (c.toNat - 48))
    else none

/-- Python `int(field)` on a split field, for the nonnegative digit strings
that occur in "HH:MM" times: any other field raises `ValueError`, which the
callers catch and turn into a skip. -/
def parseIntField : List Char → Option Nat
  | [] => none
  | l => digitsToNat l 0

/-- The parse `hour, minute = map(int, time_str.split(":"))` in
`schedule_next_call` / `create_all_scheduled_calls`: it succeeds exactly on
two colon-separated digit fields. -/
def parseTime (s : String) : Option (Nat × Nat) :=
  match (splitOnColon s.data).map parseIntField with
  | [some h, some m] => some (h, m)
  | _ => none

/-- The weekday conversion of `schedule_next_call` (lines 702-706):
schedule day 0 (Sunday) becomes Python weekday 6; any other day value
becomes `day - 1`. -/
def targetWeekday (day : Int) : Int := if day = 0 then 6 else day - 1

/-- The `days_ahead = (target_weekday - current_weekday) % 7` computation
of `schedule_next_call` (line 709); Python's `%` on ints agrees with
`Int.emod` for a positive modulus. -/
def daysAhead (d : Int) (cur : Nat) : Nat :=
  ((targetWeekday d - (cur : Int)) % 7).toNat

/-- `now_local.replace(hour=hour, minute=minute, second=0, microsecond=0)`:
today's date at `h:m`. -/
def candBase (nowLocal h m : Nat) : Nat :=
  (nowLocal / secsPerDay) * secsPerDay + h * 3600 + m * 60

/-- The candidate local occurrence computed for one schedule entry with day
value `d` and parsed time `h:m` (`schedule_next_call` lines 697-717):
today's date at `h:m` plus `days_ahead` days, rolled forward 7 days when
`candidate ≤ now_local`. -/
def candLocal (nowLocal : Nat) (d : Int) (h m : Nat) : Nat :=
  if candBase nowLocal h m + daysAhead d (pyWeekday nowLocal) * secsPerDay ≤
      nowLocal then
    candBase nowLocal h m + daysAhead d (pyWeekday nowLocal) * secsPerDay +
      secsPerWeek
  else
    candBase nowLocal h m + daysAhead d (pyWeekday nowLocal) * secsPerDay

/-- Result of examining one schedule entry: skipped (missing or unparsable
fields, caught and logged), crash (`datetime.replace` raises `ValueError`
for an out-of-range hour or minute, which is not caught per-entry), or a
candidate local occurrence together with the entry's parsed hour/minute. -/
inductive SlotResult where
  | skipped
  | crash
  | cand (t h m : Nat)
deriving DecidableEq, Repr

/-- The per-entry examination shared by `schedule_next_call` (lines 681-717)
and `create_all_scheduled_calls` (lines 491-519): entries with a missing
day, a missing or empty time, or an unparsable time are skipped; an hour
above 23 or minute above 59 makes `replace` raise; otherwise the candidate
occurrence is produced. -/
def slotResult (nowLocal : Nat) (e : ScheduleEntry) : SlotResult :=
  match e.day, e.time with
  | some d, some ts =>
    if ts = "" then .skipped
    else
      match parseTime ts with
      | none => .skipped
      | some (h, m) =>
        if 23 < h ∨ 59 < m then .crash
        else .cand (candLocal nowLocal d h m) h m
  | _, _ => .skipped

/-- The earliest-next-occurrence selection loop of `schedule_next_call`
(lines 676-722): a strict `<` comparison keeps the earliest-declared entry
on ties; a crashing entry aborts the whole computation. -/
def nextCallLocal : List ScheduleEntry → Nat → Option Nat → Except Unit (Option Nat)
  | [], _, acc => .ok acc
  | e :: rest, now, acc =>
    match slotResult now e with
    | .skipped => nextCallLocal rest now acc
    | .crash => .error ()
    | .cand c _ _ =>
      match acc with
      | none => nextCallLocal rest now (some c)
      | some b => nextCallLocal rest now (some (if c < b then c else b))

/-- The morning/afternoon/evening label derived from a local hour
(`schedule_next_call` lines 731-738, `create_all_scheduled_calls`
lines 524-530). -/
def timeWindow (hourLocal : Nat) : String :=
  if hourLocal < 12 then "morning"
  else if hourLocal < 17 then "afternoon"
  else "evening"

/-- Status values written to `scheduled_calls.status` anywhere in the source
(`models.schemas.ScheduledCallStatus` plus the `"cancelled"` value written
by `main.sync_scheduled_calls`). -/
inductive SCStatus where
  | pending
  | processing
  | completed
  | failed
  | skipped
  | cancelled
deriving DecidableEq, Repr

/-- A `scheduled_calls` row. -/
structure ScheduledCall where
  id : Nat
  userId : Nat
  scheduledFor : Int
  timeWindow : String := "morning"
  status : SCStatus
  attemptCount : Nat
  maxAttempts : Nat
  callLogId : Option Nat := none
  lastAttemptAt : Option Int := none
deriving DecidableEq, Repr

/-- SupabaseClient.schedule_next_call (lines 644-767): `none` when check-ins
are disabled, the schedule is empty, or no entry yields a candidate;
otherwise the single inserted pending entry (earliest next occurrence,
attempt_count 0, max_attempts 3).  `freshId` is the id the insert assigns
and `off` the timezone's fixed UTC offset in seconds. -/
def schedule_next_call (freshId userId : Nat) (schedule : List ScheduleEntry)
    (off : Int) (nowLocal : Nat) (enabled : Bool) :
    Except Unit (Option ScheduledCall) :=
  if ¬enabled ∨ schedule = [] then .ok none
  else
    match nextCallLocal schedule nowLocal none with
    | .error () => .error ()
    | .ok none => .ok none
    | .ok (some t) => .ok (some {
        id := freshId
        userId := userId
        scheduledFor := utcOfLocal off t
        timeWindow := timeWindow ((t % secsPerDay) / 3600)
        status := .pending
        attemptCount := 0
        maxAttempts := 3 })

/-- The per-entry creation loop of create_all_scheduled_calls
(lines 491-547): one pending entry per valid schedule entry at that entry's
own next occurrence, ids assigned consecutively from `i`; the time window
comes from the entry's configured hour. -/
def createAllGo (userId : Nat) (off : Int) (nowLocal : Nat) :
    Nat → List ScheduleEntry → Except Unit (List ScheduledCall)
  | _, [] => .ok []
  | i, e :: rest =>
    match slotResult nowLocal e with
    | .skipped => createAllGo userId off nowLocal i rest
    | .crash => .error ()
    | .cand t h _ =>
      match createAllGo userId off nowLocal (i + 1) rest with
      | .error () => .error ()
      | .ok tail => .ok ({
          id := i
          userId := userId
          scheduledFor := utcOfLocal off t
          timeWindow := timeWindow h
          status := .pending
          attemptCount := 0
          maxAttempts := 3 } :: tail)

/-- SupabaseClient.create_all_scheduled_calls (lines 457-563): empty when
check-ins are disabled or the schedule is empty; otherwise one pending entry
per valid schedule entry. -/
def create_all_scheduled_calls (freshId userId : Nat)
    (schedule : List ScheduleEntry) (off : Int) (nowLocal : Nat)
    (enabled : Bool) : Except Unit (List ScheduledCall) :=
  if ¬enabled ∨ schedule = [] then .ok []
  else createAllGo userId off nowLocal freshId schedule

/-- Decidable equality of fallible results, used to evaluate the embedded
operations on concrete inputs. -/
def exceptDecEq {ε α : Type} [DecidableEq ε] [DecidableEq α] :
    DecidableEq (Except ε α) := fun a b =>
  match a, b with
  | .error e, .error f =>
    if h : e = f then isTrue (by rw [h]) else isFalse (by intro hc; cases hc; exact h rfl)
  | .ok x, .ok y =>
    if h : x = y then isTrue (by rw [h]) else isFalse (by intro hc; cases hc; exact h rfl)
  | .error _, .ok _ => isFalse (by intro hc; cases hc)
  | .ok _, .error _ => isFalse (by intro hc; cases hc)

instance {ε α : Type} [DecidableEq ε] [DecidableEq α] :
    DecidableEq (Except ε α) := exceptDecEq

/-- A partial update dict passed to SupabaseClient.update_scheduled_call:
each field is present (`some`) or absent (`none`). -/
structure SCUpdate where
  status : Option SCStatus := none
  attemptCount : Option Nat := none
  lastAttemptAt : Option Int := none
  callLogId : Option Nat := none
deriving DecidableEq, Repr

/-- Application of an update dict to one row. -/
def applySCUpdate (u : SCUpdate) (e : ScheduledCall) : ScheduledCall :=
  { e with
    status := u.status.getD e.status
    attemptCount := u.attemptCount.getD e.attemptCount
    lastAttemptAt := match u.lastAttemptAt with
      | some v => some v
      | none => e.lastAttemptAt
    callLogId := match u.callLogId with
      | some v => some v
      | none => e.callLogId }

/-- SupabaseClient.update_scheduled_call (lines 606-626): an UPDATE filtered
only by id — there is no expected-status condition.  The first component is
the new table state, the second the matched rows that PostgREST returns.
The operation has no conflict outcome. -/
def update_scheduled_call (store : List ScheduledCall) (id : Nat)
    (u : SCUpdate) : List ScheduledCall × List ScheduledCall :=
  let store' := store.map fun e => if e.id = id then applySCUpdate u e else e
  (store', store'.filter fun e => decide (e.id = id))

/-- Insertion into a list kept ascending by scheduled_for. -/
def insertBySchedFor (e : ScheduledCall) :
    List ScheduledCall → List ScheduledCall
  | [] => [e]
  | x :: xs =>
    if e.scheduledFor ≤ x.scheduledFor then e :: x :: xs
    else x :: insertBySchedFor e xs

/-- Ascending sort by scheduled_for (PostgREST `.order("scheduled_for")`). -/
def sortBySchedFor (l : List ScheduledCall) : List ScheduledCall :=
  l.foldr insertBySchedFor []

/-- SupabaseClient.get_pending_scheduled_calls (lines 567-604): the rows with
status `pending` and `scheduled_for ≤ now`, ascending by scheduled_for. -/
def get_pending_scheduled_calls (store : List ScheduledCall) (nowUtc : Int) :
    List ScheduledCall :=
  sortBySchedFor (store.filter fun e =>
    decide (e.status = .pending ∧ e.scheduledFor ≤ nowUtc))

/-- The user_settings dict attached to a due scheduled call; a missing dict
or missing keys take the same defaults as the Python `.get` calls.  The
timezone string is modelled by its fixed UTC offset `tzOffset`. -/
structure UserSettingsD where
  callsEnabled : Bool := true
  phoneNumber : Option String := none
  phoneVerified : Bool := false
  checkinSchedule : List ScheduleEntry := []
  checkinEnabled : Bool := true
  tzOffset : Int := 0
deriving DecidableEq, Repr

/-- Python truthiness test `not phone_number`: missing or empty. -/
def phoneFalsy : Option String → Bool
  | none => true
  | some s => decide (s = "")

/-- Outcome of awaiting the dispatch callback (main.trigger_call_for_user):
it returns a dict on success, returns None when it caught an internal
failure, or raises. -/
inductive TriggerOutcome where
  | success
  | returnsNone
  | raises
deriving DecidableEq, Repr

/-- The environment of one _process_scheduled_call invocation: the wall
clock (UTC and local), the id the next insert would get, the callback's
outcome, and which store writes raise. -/
structure ProcEnv where
  nowUtc : Int := 0
  nowLocal : Nat := 0
  freshId : Nat := 0
  trigger : TriggerOutcome := .success
  claimWriteRaises : Bool := false
  skipWriteRaises : Bool := false
  handlerWriteRaises : Bool := false
  scheduleNextRaises : Bool := false
deriving DecidableEq, Repr

/-- The observable result of one _process_scheduled_call invocation. -/
structure ProcResult where
  store : List ScheduledCall
  raised : Bool
  callbackInvoked : Bool
  scheduleNextInvoked : Bool
deriving DecidableEq, Repr

/-- CallScheduler._schedule_next_for_user (scheduler.py lines 136-164):
returns without change when check-ins are disabled or the schedule is
empty; otherwise inserts the next pending entry via schedule_next_call;
every error (including an out-of-range slot time) is caught and logged. -/
def scheduleNextForUser (store : List ScheduledCall) (userId : Nat)
    (s : UserSettingsD) (env : ProcEnv) : List ScheduledCall :=
  if ¬s.checkinEnabled ∨ s.checkinSchedule = [] then store
  else if env.scheduleNextRaises then store
  else
    match schedule_next_call env.freshId userId s.checkinSchedule s.tzOffset
        env.nowLocal s.checkinEnabled with
    | .error () => store
    | .ok none => store
    | .ok (some e) => store ++ [e]

/-- The except handler of _process_scheduled_call (scheduler.py lines
119-134), the RetryPolicy: mark the entry failed when
`attempt_count + 1 >= max_attempts` (attempt_count as read in the fetched
snapshot), otherwise reset it to pending; the status write itself may
raise, in which case the exception escapes the function. -/
def retryHandler (snap : ScheduledCall) (env : ProcEnv)
    (st : List ScheduledCall) (invoked schedInv : Bool) : ProcResult :=
  if env.handlerWriteRaises then
    { store := st, raised := true, callbackInvoked := invoked
      scheduleNextInvoked := schedInv }
  else if snap.maxAttempts ≤ snap.attemptCount + 1 then
    { store := (update_scheduled_call st snap.id { status := some .failed }).1
      raised := false, callbackInvoked := invoked
      scheduleNextInvoked := schedInv }
  else
    { store := (update_scheduled_call st snap.id { status := some .pending }).1
      raised := false, callbackInvoked := invoked
      scheduleNextInvoked := schedInv }

/-- CallScheduler._process_scheduled_call (scheduler.py lines 69-134) on the
due entry `snap` (the record fetched at the start of the cycle) with its
user_settings `s`: mark the entry processing with attempt_count
incremented, skip terminally when calls are disabled or the phone is
missing/unverified, await the dispatch callback, on a truthy result
schedule the user's next occurrence; any exception in the body is caught
and handled by the RetryPolicy. -/
def processScheduledCall (store : List ScheduledCall) (snap : ScheduledCall)
    (s : UserSettingsD) (env : ProcEnv) : ProcResult :=
  if env.claimWriteRaises then retryHandler snap env store false false
  else
    let st1 := (update_scheduled_call store snap.id
      { status := some .processing
        lastAttemptAt := some env.nowUtc
        attemptCount := some (snap.attemptCount + 1) }).1
    if ¬s.callsEnabled then
      if env.skipWriteRaises then retryHandler snap env st1 false false
      else
        { store := (update_scheduled_call st1 snap.id
            { status := some .skipped }).1
          raised := false, callbackInvoked := false
          scheduleNextInvoked := false }
    else if phoneFalsy s.phoneNumber ∨ ¬s.phoneVerified then
      if env.skipWriteRaises then retryHandler snap env st1 false false
      else
        { store := (update_scheduled_call st1 snap.id
            { status := some .skipped }).1
          raised := false, callbackInvoked := false
          scheduleNextInvoked := false }
    else
      match env.trigger with
      | .raises => retryHandler snap env st1 true false
      | .returnsNone =>
        { store := st1, raised := false, callbackInvoked := true
          scheduleNextInvoked := false }
      | .success =>
        { store := scheduleNextForUser st1 snap.userId s env
          raised := false, callbackInvoked := true
          scheduleNextInvoked := true }

/-- The per-entry loop of CallScheduler.check_and_trigger_calls
(scheduler.py lines 53-67): the fetched due entries are processed in
order; an exception escaping _process_scheduled_call is caught by the
cycle-level handler, which ends the cycle, so the remaining entries are not
processed.  Returns the final store and the ids of the entries actually
processed. -/
def runCycle (store : List ScheduledCall) :
    List (ScheduledCall × UserSettingsD × ProcEnv) →
    List ScheduledCall × List Nat
  | [] => (store, [])
  | (snap, s, env) :: rest =>
    let r := processScheduledCall store snap s env
    if r.raised then (r.store, [snap.id])
    else
      let rec' := runCycle r.store rest
      (rec'.1, snap.id :: rec'.2)

/-- A call_logs row.  The status column is a free string: the webhook
stores the raw Twilio status when it is not in its map, and the other
producers write the literals of models.schemas.CallStatus. -/
structure CallLog where
  id : Nat
  userId : Nat
  callSid : Option String := none
  status : String
  startedAt : Option Int := none
  endedAt : Option Int := none
  durationSeconds : Option Int := none
  failureReason : Option String := none
  transcript : Option String := none
  summary : Option String := none
deriving DecidableEq, Repr

/-- A partial update dict passed to SupabaseClient.update_call_log. -/
structure CallLogUpdate where
  status : Option String := none
  startedAt : Option Int := none
  endedAt : Option Int := none
  durationSeconds : Option Int := none
  failureReason : Option String := none
  transcript : Option String := none
  summary : Option String := none
deriving DecidableEq, Repr

/-- Application of an update dict to one call-log row. -/
def applyCallLogUpdate (u : CallLogUpdate) (e : CallLog) : CallLog :=
  { e with
    status := u.status.getD e.status
    startedAt := match u.startedAt with
      | some v => some v
      | none => e.startedAt
    endedAt := match u.endedAt with
      | some v => some v
      | none => e.endedAt
    durationSeconds := match u.durationSeconds with
      | some v => some v
      | none => e.durationSeconds
    failureReason := match u.failureReason with
      | some v => some v
      | none => e.failureReason
    transcript := match u.transcript with
      | some v => some v
      | none => e.transcript
    summary := match u.summary with
      | some v => some v
      | none => e.summary }

/-- SupabaseClient.update_call_log (lines 401-421): an UPDATE filtered only
by id, applied to the current row whatever its status — there is no
transition guard and no terminal-state check. -/
def update_call_log (store : List CallLog) (id : Nat) (u : CallLogUpdate) :
    List CallLog :=
  store.map fun e => if e.id = id then applyCallLogUpdate u e else e

/-- SupabaseClient.get_call_log_by_sid (lines 440-455): `.single()` demands
exactly one matching row; any error is caught and turned into None. -/
def get_call_log_by_sid (store : List CallLog) (sid : String) :
    Option CallLog :=
  match store.filter fun e => decide (e.callSid = some sid) with
  | [e] => some e
  | _ => none

/-- The Twilio-to-internal status map of main.twilio_webhook (lines
427-438); a status outside the map passes through as the raw string. -/
def mapTwilioStatus (s : String) : String :=
  if s = "initiated" then "initiated"
  else if s = "ringing" then "ringing"
  else if s = "in-progress" then "in_progress"
  else if s = "completed" then "completed"
  else if s = "busy" then "busy"
  else if s = "no-answer" then "no_answer"
  else if s = "failed" then "failed"
  else if s = "canceled" then "canceled"
  else s

/-- Membership in the terminal status list of main.twilio_webhook lines
455-457 (also the terminal set named by the spec). -/
def isTerminalCallStatus (s : String) : Bool :=
  s = "completed" ∨ s = "failed" ∨ s = "no_answer" ∨ s = "busy" ∨
    s = "canceled"

/-- main.twilio_webhook (lines 394-474) after form parsing: look up the
call log by CallSid and apply the update dict built from the Twilio fields
— the mapped status always, the parsed duration when present and parsable,
ended_at for terminal statuses, and a failure reason for
failed/no_answer/busy. -/
def twilioWebhook (store : List CallLog) (callSid callStatus : String)
    (callDuration : Option String) (nowUtc : Int) : List CallLog :=
  match get_call_log_by_sid store callSid with
  | none => store
  | some log =>
    let st := mapTwilioStatus callStatus
    let u0 : CallLogUpdate := { status := some st }
    let u1 := match callDuration with
      | some d =>
        if d = "" then u0
        else
          match parseIntField d.data with
          | some n => { u0 with durationSeconds := some (n : Int) }
          | none => u0
      | none => u0
    let u2 := if isTerminalCallStatus st then { u1 with endedAt := some nowUtc }
      else u1
    let u3 := if st = "failed" ∨ st = "no_answer" ∨ st = "busy" then
        { u2 with failureReason := some ("Call " ++ callStatus) }
      else u2
    update_call_log store log.id u3

/-- The session-path terminal write: agent on_call_ended builds an update
dict with status "completed" and the call payload (ended_at, duration,
transcript, summary) and applies it through update_call_log. -/
def sessionCompletedWrite (store : List CallLog) (callLogId : Nat)
    (endedAt duration : Int) (transcript summary : String) : List CallLog :=
  update_call_log store callLogId
    { status := some "completed"
      endedAt := some endedAt
      durationSeconds := some duration
      transcript := some transcript
      summary := some summary }

/-- The conditional cancel of main.sync_scheduled_calls (lines 585-598):
UPDATE status='cancelled' filtered by user_id and status='pending'. -/
def cancelPendingFor (userId : Nat) (store : List ScheduledCall) :
    List ScheduledCall :=
  store.map fun e =>
    if e.userId = userId ∧ e.status = .pending then { e with status := .cancelled }
    else e

/-- The rows the cancel of main.sync_scheduled_calls matches. -/
def pendingFor (userId : Nat) (store : List ScheduledCall) :
    List ScheduledCall :=
  store.filter fun e => decide (e.userId = userId ∧ e.status = .pending)

/-- main.sync_scheduled_calls (lines 578-614) after auth and settings
lookup: cancel every pending entry of the user; when check-ins are disabled
or the schedule is empty, stop there with no inserts; otherwise recreate
one entry per schedule slot via create_all_scheduled_calls.  Returns the
new store, the created entries, and the number of rows the cancel
matched. -/
def syncScheduledCalls (store : List ScheduledCall) (userId freshId : Nat)
    (s : UserSettingsD) (nowLocal : Nat) :
    Except Unit (List ScheduledCall × List ScheduledCall × Nat) :=
  let n := (pendingFor userId store).length
  let store1 := cancelPendingFor userId store
  if ¬s.checkinEnabled ∨ s.checkinSchedule = [] then .ok (store1, [], n)
  else
    match create_all_scheduled_calls freshId userId s.checkinSchedule
        s.tzOffset nowLocal s.checkinEnabled with
    | .error () => .error ()
    | .ok created => .ok (store1 ++ created, created, n)

/-- Evaluation helper for fallible operations at concrete inputs. -/
def okOr {α : Type} (r : Except Unit α) (d : α) : α :=
  match r with
  | .ok a => a
  | .error () => d

/-- The pending-to-processing transition exactly as the dispatcher performs
it (scheduler.py lines 84-89): the first update_scheduled_call of
_process_scheduled_call, built from the fetched snapshot `snap`. -/
def claimScheduledCall (store : List ScheduledCall) (snap : ScheduledCall)
    (now : Int) : List ScheduledCall × List ScheduledCall :=
  update_scheduled_call store snap.id
    { status := some .processing
      lastAttemptAt := some now
      attemptCount := some (snap.attemptCount + 1) }

/-- Whether a claim invocation took effect: the update matched rows and
left the entry in processing.  No value of the result represents a
conflict — the operation always reports plain success to its caller. -/
def claimSucceeded (r : List ScheduledCall × List ScheduledCall) : Bool :=
  r.2.any fun e => e.status == SCStatus.processing

/-- Whether the local instant `t` lands on the configured weekday (0 =
Sunday convention) and HH:MM time of schedule entry `e`. -/
def slotMatches (e : ScheduleEntry) (t : Nat) : Bool :=
  match e.day, e.time with
  | some d, some ts =>
    match parseTime ts with
    | some (h, m) =>
      decide (d = (scheduleDay t : Int) ∧ (t % secsPerDay) / 3600 = h ∧
        (t % 3600) / 60 = m)
    | none => false
  | _, _ => false

/-- How many configured entries the local instant `t` matches. -/
def countMatches (l : List ScheduleEntry) (t : Nat) : Nat :=
  (l.filter fun e => slotMatches e t).length

/-- A well-formed slot in the sense of the spec: a day value in 0..6 and a
parsable HH:MM time with an in-range hour and minute. -/
def wellFormedSlot (e : ScheduleEntry) : Bool :=
  match e.day, e.time with
  | some d, some ts =>
    match parseTime ts with
    | some (h, m) => decide (0 ≤ d ∧ d ≤ 6 ∧ h ≤ 23 ∧ m ≤ 59)
    | none => false
  | _, _ => false

/-- The identifying weekday-and-time key of a schedule entry (`none` when
the entry does not parse). -/
def slotKey (e : ScheduleEntry) : Option (Int × Nat × Nat) :=
  match e.day, e.time with
  | some d, some ts => (parseTime ts).map fun hm => (d, hm.1, hm.2)
  | _, _ => none

/-- Scheduled-call entry states reachable through the operations of the
source: creation by schedule_next_call or create_all_scheduled_calls, a
full _process_scheduled_call invocation on a fetched pending snapshot, the
mark_scheduled_call_complete helper (supabase_client.py lines 628-642), and
the conditional cancel of sync_scheduled_calls. -/
inductive ReachableEntry : ScheduledCall → Prop where
  | created (freshId userId : Nat) (sched : List ScheduleEntry) (off : Int)
      (nowLocal : Nat) (enabled : Bool) (e : ScheduledCall) :
      schedule_next_call freshId userId sched off nowLocal enabled =
        .ok (some e) →
      ReachableEntry e
  | createdAll (freshId userId : Nat) (sched : List ScheduleEntry)
      (off : Int) (nowLocal : Nat) (enabled : Bool)
      (l : List ScheduledCall) (e : ScheduledCall) :
      create_all_scheduled_calls freshId userId sched off nowLocal enabled =
        .ok l →
      e ∈ l → ReachableEntry e
  | processed (e : ScheduledCall) (s : UserSettingsD) (env : ProcEnv)
      (e' : ScheduledCall) :
      ReachableEntry e → e.status = .pending →
      e' ∈ (processScheduledCall [e] e s env).store → ReachableEntry e'
  | markedComplete (e : ScheduledCall) (clid : Nat) :
      ReachableEntry e →
      ReachableEntry
        (applySCUpdate { status := some .completed, callLogId := some clid } e)
  | cancelled (e : ScheduledCall) :
      ReachableEntry e → e.status = .pending →
      ReachableEntry { e with status := .cancelled }

theorem applySCUpdate_id (u : SCUpdate) (e : ScheduledCall) :
    (applySCUpdate u e).id = e.id := rfl

theorem update_scheduled_call_mem_new (store : List ScheduledCall) (i : Nat)
    (u : SCUpdate) (e : ScheduledCall) (he : e ∈ store) (hid : e.id = i) :
    applySCUpdate u e ∈ (update_scheduled_call store i u).1 := by
  show applySCUpdate u e ∈
    store.map fun x => if x.id = i then applySCUpdate u x else x
  exact List.mem_map.mpr ⟨e, he, by rw [if_pos hid]⟩

theorem update_scheduled_call_mem_matched (store : List ScheduledCall)
    (i : Nat) (u : SCUpdate) (e : ScheduledCall) (he : e ∈ store)
    (hid : e.id = i) :
    applySCUpdate u e ∈ (update_scheduled_call store i u).2 := by
  show applySCUpdate u e ∈
    ((update_scheduled_call store i u).1).filter fun x => decide (x.id = i)
  refine List.mem_filter.mpr
    ⟨update_scheduled_call_mem_new store i u e he hid, ?_⟩
  have hid' : (applySCUpdate u e).id = i := by rw [applySCUpdate_id, hid]
  simp [hid']

theorem claimSucceeded_of_mem (store : List ScheduledCall)
    (snap : ScheduledCall) (now : Int) (e : ScheduledCall) (he : e ∈ store)
    (hid : e.id = snap.id) :
    claimSucceeded (claimScheduledCall store snap now) = true := by
  unfold claimScheduledCall claimSucceeded
  apply List.any_eq_true.mpr
  refine ⟨applySCUpdate _ e,
    update_scheduled_call_mem_matched store snap.id _ e he hid, ?_⟩
  simp [applySCUpdate]

/-- C1 counterexample: a concrete pending entry and two callers performing
the pending-to-processing transition one after the other (either
serialization of two simultaneous callers): both invocations report
success, none a conflict, so it is not the case that exactly one caller
succeeds. -/
theorem c1_counterexample :
    claimSucceeded (claimScheduledCall
      [{ id := 1, userId := 7, scheduledFor := 0, status := .pending,
         attemptCount := 0, maxAttempts := 3 }]
      { id := 1, userId := 7, scheduledFor := 0, status := .pending,
        attemptCount := 0, maxAttempts := 3 } 100) = true ∧
    claimSucceeded (claimScheduledCall
      (claimScheduledCall
        [{ id := 1, userId := 7, scheduledFor := 0, status := .pending,
           attemptCount := 0, maxAttempts := 3 }]
        { id := 1, userId := 7, scheduledFor := 0, status := .pending,
          attemptCount := 0, maxAttempts := 3 } 100).1
      { id := 1, userId := 7, scheduledFor := 0, status := .pending,
        attemptCount := 0, maxAttempts := 3 } 100) = true := by
  decide

/-- C1 (amended): the pending-to-processing transition is an unconditional
UPDATE keyed only by id, with no expected-status condition and no conflict
outcome; under concurrent claims of the same entry id every caller
succeeds — for any store containing the entry, both serializations of two
callers report success for both callers. -/
theorem c1_claim_not_atomic_all_callers_succeed (store : List ScheduledCall)
    (snapA snapB : ScheduledCall) (e : ScheduledCall) (he : e ∈ store)
    (hidA : e.id = snapA.id) (hidB : snapB.id = snapA.id)
    (now1 now2 : Int) :
    claimSucceeded (claimScheduledCall store snapA now1) = true ∧
    claimSucceeded (claimScheduledCall
      (claimScheduledCall store snapA now1).1 snapB now2) = true := by
  constructor
  · exact claimSucceeded_of_mem store snapA now1 e he hidA
  · have hmem := update_scheduled_call_mem_new store snapA.id
      { status := some .processing, lastAttemptAt := some now1,
        attemptCount := some (snapA.attemptCount + 1) } e he hidA
    exact claimSucceeded_of_mem _ snapB now2 _ hmem
      (by rw [applySCUpdate_id, hidA, hidB])

/-- C1 witness: the amended theorem applied to the concrete entry of the
counterexample. -/
theorem c1_witness :
    claimSucceeded (claimScheduledCall
      [{ id := 1, userId := 7, scheduledFor := 0, status := .pending,
         attemptCount := 0, maxAttempts := 3 }]
      { id := 1, userId := 7, scheduledFor := 0, status := .pending,
        attemptCount := 0, maxAttempts := 3 } 100) = true ∧
    claimSucceeded (claimScheduledCall
      (claimScheduledCall
        [{ id := 1, userId := 7, scheduledFor := 0, status := .pending,
           attemptCount := 0, maxAttempts := 3 }]
        { id := 1, userId := 7, scheduledFor := 0, status := .pending,
          attemptCount := 0, maxAttempts := 3 } 100).1
      { id := 1, userId := 7, scheduledFor := 0, status := .pending,
        attemptCount := 0, maxAttempts := 3 } 150) = true :=
  c1_claim_not_atomic_all_callers_succeed _ _ _
    { id := 1, userId := 7, scheduledFor := 0, status := .pending,
      attemptCount := 0, maxAttempts := 3 }
    (List.mem_singleton.mpr rfl) rfl rfl 100 150

/-- C2 counterexample: a call log brought to the terminal status
"completed" with its payload by the session path is afterwards overwritten
by a late delivery-status callback — the stored status and duration
change. -/
theorem c2_counterexample :
    (sessionCompletedWrite
        [{ id := 5, userId := 1, callSid := some "CA123",
           status := "in_progress" }] 5 1000 120 "t" "s").map CallLog.status =
      ["completed"] ∧
    ((twilioWebhook
        (sessionCompletedWrite
          [{ id := 5, userId := 1, callSid := some "CA123",
             status := "in_progress" }] 5 1000 120 "t" "s")
        "CA123" "no-answer" (some "0") 2000).map CallLog.status =
      ["no_answer"] ∧
     (twilioWebhook
        (sessionCompletedWrite
          [{ id := 5, userId := 1, callSid := some "CA123",
             status := "in_progress" }] 5 1000 120 "t" "s")
        "CA123" "no-answer" (some "0") 2000).map CallLog.durationSeconds =
      [some 0]) := by
  decide

/-- C2 (amended): update_call_log has no terminal-status guard — a write
against a record whose status is terminal is applied like any other
(last-write-wins), so the stored status and payload can change after a
terminal value. -/
theorem c2_terminal_status_not_sticky (store : List CallLog) (i : Nat)
    (u : CallLogUpdate) (e : CallLog) (he : e ∈ store) (hid : e.id = i)
    (hterm : isTerminalCallStatus e.status = true) (s : String)
    (hu : u.status = some s) :
    applyCallLogUpdate u e ∈ update_call_log store i u ∧
    (applyCallLogUpdate u e).status = s := by
  constructor
  · show applyCallLogUpdate u e ∈
      store.map fun x => if x.id = i then applyCallLogUpdate u x else x
    exact List.mem_map.mpr ⟨e, he, by rw [if_pos hid]⟩
  · simp [applyCallLogUpdate, hu]

theorem mem_insertBySchedFor (x e : ScheduledCall) (l : List ScheduledCall) :
    x ∈ insertBySchedFor e l ↔ x = e ∨ x ∈ l := by
  induction l with
  | nil => simp [insertBySchedFor]
  | cons a as ih =>
    unfold insertBySchedFor
    split
    · simp [List.mem_cons]
    · simp only [List.mem_cons, ih]
      tauto

theorem mem_sortBySchedFor (x : ScheduledCall) (l : List ScheduledCall) :
    x ∈ sortBySchedFor l ↔ x ∈ l := by
  unfold sortBySchedFor
  induction l with
  | nil => simp
  | cons a as ih =>
    simp only [List.foldr_cons, mem_insertBySchedFor, ih, List.mem_cons]

theorem mem_get_pending (store : List ScheduledCall) (now : Int)
    (x : ScheduledCall) :
    x ∈ get_pending_scheduled_calls store now ↔
      x ∈ store ∧ x.status = .pending ∧ x.scheduledFor ≤ now := by
  unfold get_pending_scheduled_calls
  rw [mem_sortBySchedFor, List.mem_filter]
  simp

theorem no_pending_with_id (store : List ScheduledCall) (i : Nat)
    (h : ∀ x ∈ store, x.id = i → x.status ≠ .pending) (now : Int)
    (x : ScheduledCall) (hx : x ∈ get_pending_scheduled_calls store now) :
    x.id ≠ i := by
  rw [mem_get_pending] at hx
  intro hxid
  exact h x hx.1 hxid hx.2.1

theorem update_scheduled_call_fst_mem (store : List ScheduledCall) (i : Nat)
    (u : SCUpdate) (x : ScheduledCall) :
    x ∈ (update_scheduled_call store i u).1 ↔
      ∃ y ∈ store, x = if y.id = i then applySCUpdate u y else y := by
  show x ∈ store.map _ ↔ _
  simp only [List.mem_map]
  constructor
  · rintro ⟨y, hy, rfl⟩
    exact ⟨y, hy, rfl⟩
  · rintro ⟨y, hy, rfl⟩
    exact ⟨y, hy, rfl⟩

theorem double_update_id_unique (store : List ScheduledCall) (i : Nat)
    (u1 u2 : SCUpdate) (e : ScheduledCall) (he : e ∈ store)
    (huniq : ∀ x ∈ store, x.id = i → x = e) (x : ScheduledCall)
    (hx : x ∈ (update_scheduled_call
      (update_scheduled_call store i u1).1 i u2).1)
    (hxid : x.id = i) :
    x = applySCUpdate u2 (applySCUpdate u1 e) := by
  rw [update_scheduled_call_fst_mem] at hx
  obtain ⟨z, hz, hxz⟩ := hx
  rw [update_scheduled_call_fst_mem] at hz
  obtain ⟨y, hy, hzy⟩ := hz
  by_cases hyi : y.id = i
  · have hye : y = e := huniq y hy hyi
    subst hye
    rw [if_pos hyi] at hzy
    subst hzy
    rw [if_pos (by rw [applySCUpdate_id]; exact hyi)] at hxz
    exact hxz
  · rw [if_neg hyi] at hzy
    subst hzy
    rw [if_neg hyi] at hxz
    subst hxz
    exact absurd hxid hyi

theorem scheduleNextForUser_mem_mono (store : List ScheduledCall)
    (userId : Nat) (s : UserSettingsD) (env : ProcEnv) (x : ScheduledCall)
    (hx : x ∈ store) : x ∈ scheduleNextForUser store userId s env := by
  unfold scheduleNextForUser
  split
  · exact hx
  split
  · exact hx
  split
  · exact hx
  · exact hx
  · exact List.mem_append.mpr (Or.inl hx)

/-- C2 witness: the amended theorem applied to a concrete completed record
receiving a late failure write. -/
theorem c2_witness :
    applyCallLogUpdate { status := some "failed" }
        { id := 5, userId := 1, callSid := some "CA123",
          status := "completed" } ∈
      update_call_log
        [{ id := 5, userId := 1, callSid := some "CA123",
           status := "completed" }] 5 { status := some "failed" } ∧
    (applyCallLogUpdate { status := some "failed" }
        { id := 5, userId := 1, callSid := some "CA123",
          status := "completed" }).status = "failed" :=
  c2_terminal_status_not_sticky _ 5 _
    { id := 5, userId := 1, callSid := some "CA123", status := "completed" }
    (List.mem_singleton.mpr rfl) rfl (by decide) "failed" rfl

theorem processScheduledCall_skip_eq (store : List ScheduledCall)
    (snap : ScheduledCall) (s : UserSettingsD) (env : ProcEnv)
    (hcw : env.claimWriteRaises = false) (hsw : env.skipWriteRaises = false)
    (hcond : s.callsEnabled = false ∨ phoneFalsy s.phoneNumber = true ∨
      s.phoneVerified = false) :
    processScheduledCall store snap s env =
      { store := (update_scheduled_call
          (update_scheduled_call store snap.id
            { status := some .processing, lastAttemptAt := some env.nowUtc,
              attemptCount := some (snap.attemptCount + 1) }).1 snap.id
          { status := some .skipped }).1
        raised := false
        callbackInvoked := false
        scheduleNextInvoked := false } := by
  unfold processScheduledCall
  rw [hcw, hsw]
  rcases hcond with hc | hc | hc
  · simp [hc]
  · simp [hc]
  · simp [hc]

/-- C8: a claimed due entry whose user has calls disabled, or whose phone
number is missing/empty or unverified, is set to skipped without the
dispatch callback being invoked, and no entry with its id is ever returned
by the pending-due query again. -/
theorem c8_disabled_or_unverified_skipped_terminally
    (store : List ScheduledCall) (e : ScheduledCall) (s : UserSettingsD)
    (env : ProcEnv) (he : e ∈ store)
    (huniq : ∀ x ∈ store, x.id = e.id → x = e)
    (hcw : env.claimWriteRaises = false) (hsw : env.skipWriteRaises = false)
    (hcond : s.callsEnabled = false ∨ phoneFalsy s.phoneNumber = true ∨
      s.phoneVerified = false) :
    (processScheduledCall store e s env).callbackInvoked = false ∧
    (processScheduledCall store e s env).raised = false ∧
    (∃ e', e' ∈ (processScheduledCall store e s env).store ∧ e'.id = e.id ∧
      e'.status = .skipped) ∧
    ∀ now x, x ∈ get_pending_scheduled_calls
      (processScheduledCall store e s env).store now → x.id ≠ e.id := by
  rw [processScheduledCall_skip_eq store e s env hcw hsw hcond]
  refine ⟨rfl, rfl,
    ⟨applySCUpdate { status := some .skipped }
      (applySCUpdate
        { status := some .processing, lastAttemptAt := some env.nowUtc,
          attemptCount := some (e.attemptCount + 1) } e), ?_, ?_, rfl⟩, ?_⟩
  · exact update_scheduled_call_mem_new _ e.id _ _
      (update_scheduled_call_mem_new store e.id _ e he rfl)
      (by rw [applySCUpdate_id])
  · rw [applySCUpdate_id, applySCUpdate_id]
  · intro now x hx
    refine no_pending_with_id _ e.id ?_ now x hx
    intro y hy hyid hypend
    have hval := double_update_id_unique store e.id _ _ e he huniq y hy hyid
    rw [hval] at hypend
    simp [applySCUpdate] at hypend

/-- C8 witness: a concrete due entry whose user settings hold no phone
number (and the default unverified flag) is skipped without dispatch and
never returned as pending again. -/
theorem c8_witness :
    (processScheduledCall
      [{ id := 1, userId := 7, scheduledFor := 0, status := .pending,
         attemptCount := 0, maxAttempts := 3 }]
      { id := 1, userId := 7, scheduledFor := 0, status := .pending,
        attemptCount := 0, maxAttempts := 3 }
      {} {}).callbackInvoked = false ∧
    (processScheduledCall
      [{ id := 1, userId := 7, scheduledFor := 0, status := .pending,
         attemptCount := 0, maxAttempts := 3 }]
      { id := 1, userId := 7, scheduledFor := 0, status := .pending,
        attemptCount := 0, maxAttempts := 3 }
      {} {}).raised = false ∧
    (∃ e', e' ∈ (processScheduledCall
      [{ id := 1, userId := 7, scheduledFor := 0, status := .pending,
         attemptCount := 0, maxAttempts := 3 }]
      { id := 1, userId := 7, scheduledFor := 0, status := .pending,
        attemptCount := 0, maxAttempts := 3 }
      {} {}).store ∧ e'.id = 1 ∧ e'.status = .skipped) ∧
    ∀ now x, x ∈ get_pending_scheduled_calls (processScheduledCall
      [{ id := 1, userId := 7, scheduledFor := 0, status := .pending,
         attemptCount := 0, maxAttempts := 3 }]
      { id := 1, userId := 7, scheduledFor := 0, status := .pending,
        attemptCount := 0, maxAttempts := 3 }
      {} {}).store now → x.id ≠ 1 :=
  c8_disabled_or_unverified_skipped_terminally _ _ _ _
    (List.mem_singleton.mpr rfl) (by decide) rfl rfl
    (Or.inr (Or.inl rfl))

theorem processScheduledCall_raises_eq (store : List ScheduledCall)
    (snap : ScheduledCall) (s : UserSettingsD) (env : ProcEnv)
    (hcw : env.claimWriteRaises = false) (hen : s.callsEnabled = true)
    (hph : phoneFalsy s.phoneNumber = false) (hver : s.phoneVerified = true)
    (htr : env.trigger = .raises) :
    processScheduledCall store snap s env =
      retryHandler snap env (update_scheduled_call store snap.id
        { status := some .processing, lastAttemptAt := some env.nowUtc,
          attemptCount := some (snap.attemptCount + 1) }).1 true false := by
  unfold processScheduledCall
  rw [hcw, htr]
  simp [hen, hph, hver]

theorem processScheduledCall_success_eq (store : List ScheduledCall)
    (snap : ScheduledCall) (s : UserSettingsD) (env : ProcEnv)
    (hcw : env.claimWriteRaises = false) (hen : s.callsEnabled = true)
    (hph : phoneFalsy s.phoneNumber = false) (hver : s.phoneVerified = true)
    (htr : env.trigger = .success) :
    processScheduledCall store snap s env =
      { store := scheduleNextForUser (update_scheduled_call store snap.id
          { status := some .processing, lastAttemptAt := some env.nowUtc,
            attemptCount := some (snap.attemptCount + 1) }).1 snap.userId s env
        raised := false
        callbackInvoked := true
        scheduleNextInvoked := true } := by
  unfold processScheduledCall
  rw [hcw, htr]
  simp [hen, hph, hver]

/-- C5 counterexample: a dispatch attempt that fails by the callback
returning None (trigger_call_for_user catches its own errors and returns
None) leaves the entry in processing — it neither becomes failed nor
returns to pending, although its attempt count (1) is below max_attempts
(3). -/
theorem c5_counterexample :
    (processScheduledCall
      [{ id := 1, userId := 7, scheduledFor := 0, status := .pending,
         attemptCount := 0, maxAttempts := 3 }]
      { id := 1, userId := 7, scheduledFor := 0, status := .pending,
        attemptCount := 0, maxAttempts := 3 }
      { phoneNumber := some "+15551234567", phoneVerified := true }
      { trigger := .returnsNone }).raised = false ∧
    (processScheduledCall
      [{ id := 1, userId := 7, scheduledFor := 0, status := .pending,
         attemptCount := 0, maxAttempts := 3 }]
      { id := 1, userId := 7, scheduledFor := 0, status := .pending,
        attemptCount := 0, maxAttempts := 3 }
      { phoneNumber := some "+15551234567", phoneVerified := true }
      { trigger := .returnsNone }).store.map ScheduledCall.status =
      [.processing] := by
  decide

/-- C5 (amended): the retry policy applies only to dispatch failures that
raise an exception inside _process_scheduled_call; for those, when the
handler's own status write succeeds, the entry becomes failed exactly when
the incremented attempt count has reached max_attempts and otherwise
returns to pending, and an entry that became failed is never returned by
the pending-due query.  (A dispatch failure reported as a None return
leaves the entry in processing, per the counterexample.) -/
theorem c5_retry_policy_for_raised_failures (store : List ScheduledCall)
    (e : ScheduledCall) (s : UserSettingsD) (env : ProcEnv)
    (he : e ∈ store) (huniq : ∀ x ∈ store, x.id = e.id → x = e)
    (hen : s.callsEnabled = true) (hph : phoneFalsy s.phoneNumber = false)
    (hver : s.phoneVerified = true) (htr : env.trigger = .raises)
    (hcw : env.claimWriteRaises = false)
    (hhw : env.handlerWriteRaises = false) :
    (processScheduledCall store e s env).raised = false ∧
    ∃ e', e' ∈ (processScheduledCall store e s env).store ∧ e'.id = e.id ∧
      e'.attemptCount = e.attemptCount + 1 ∧
      (e'.status = .failed ↔ e.maxAttempts ≤ e.attemptCount + 1) ∧
      (e'.status = .pending ↔ e.attemptCount + 1 < e.maxAttempts) ∧
      (e.maxAttempts ≤ e.attemptCount + 1 →
        ∀ now x, x ∈ get_pending_scheduled_calls
          (processScheduledCall store e s env).store now → x.id ≠ e.id) := by
  rw [processScheduledCall_raises_eq store e s env hcw hen hph hver htr]
  unfold retryHandler
  rw [hhw]
  simp only [Bool.false_eq_true, if_false]
  by_cases hmax : e.maxAttempts ≤ e.attemptCount + 1
  · rw [if_pos hmax]
    refine ⟨rfl,
      applySCUpdate { status := some .failed }
        (applySCUpdate
          { status := some .processing, lastAttemptAt := some env.nowUtc,
            attemptCount := some (e.attemptCount + 1) } e), ?_, ?_, rfl, ?_, ?_, ?_⟩
    · exact update_scheduled_call_mem_new _ e.id _ _
        (update_scheduled_call_mem_new store e.id _ e he rfl)
        (by rw [applySCUpdate_id])
    · rw [applySCUpdate_id, applySCUpdate_id]
    · exact ⟨fun _ => hmax, fun _ => rfl⟩
    · constructor
      · intro hc
        simp [applySCUpdate] at hc
      · intro hc
        omega
    · intro _ now x hx
      refine no_pending_with_id _ e.id ?_ now x hx
      intro y hy hyid hypend
      have hval := double_update_id_unique store e.id _ _ e he huniq y hy hyid
      rw [hval] at hypend
      simp [applySCUpdate] at hypend
  · rw [if_neg hmax]
    refine ⟨rfl,
      applySCUpdate { status := some .pending }
        (applySCUpdate
          { status := some .processing, lastAttemptAt := some env.nowUtc,
            attemptCount := some (e.attemptCount + 1) } e), ?_, ?_, rfl, ?_, ?_, ?_⟩
    · exact update_scheduled_call_mem_new _ e.id _ _
        (update_scheduled_call_mem_new store e.id _ e he rfl)
        (by rw [applySCUpdate_id])
    · rw [applySCUpdate_id, applySCUpdate_id]
    · constructor
      · intro hc
        simp [applySCUpdate] at hc
      · intro hc
        exact absurd hc hmax
    · exact ⟨fun _ => by omega, fun _ => rfl⟩
    · intro hc
      exact absurd hc hmax

/-- C5 witness: a concrete entry at attempt_count 2 of 3 whose dispatch
raises becomes failed (the incremented count reaches max_attempts). -/
theorem c5_witness :
    (processScheduledCall
      [{ id := 1, userId := 7, scheduledFor := 0, status := .pending,
         attemptCount := 2, maxAttempts := 3 }]
      { id := 1, userId := 7, scheduledFor := 0, status := .pending,
        attemptCount := 2, maxAttempts := 3 }
      { phoneNumber := some "+15551234567", phoneVerified := true }
      { trigger := .raises }).raised = false ∧
    ∃ e', e' ∈ (processScheduledCall
      [{ id := 1, userId := 7, scheduledFor := 0, status := .pending,
         attemptCount := 2, maxAttempts := 3 }]
      { id := 1, userId := 7, scheduledFor := 0, status := .pending,
        attemptCount := 2, maxAttempts := 3 }
      { phoneNumber := some "+15551234567", phoneVerified := true }
      { trigger := .raises }).store ∧ e'.id = 1 ∧
      e'.attemptCount = 2 + 1 ∧
      (e'.status = .failed ↔ 3 ≤ 2 + 1) ∧
      (e'.status = .pending ↔ 2 + 1 < 3) ∧
      (3 ≤ 2 + 1 →
        ∀ now x, x ∈ get_pending_scheduled_calls (processScheduledCall
          [{ id := 1, userId := 7, scheduledFor := 0, status := .pending,
             attemptCount := 2, maxAttempts := 3 }]
          { id := 1, userId := 7, scheduledFor := 0, status := .pending,
            attemptCount := 2, maxAttempts := 3 }
          { phoneNumber := some "+15551234567", phoneVerified := true }
          { trigger := .raises }).store now → x.id ≠ 1) :=
  c5_retry_policy_for_raised_failures _ _ _ _
    (List.mem_singleton.mpr rfl) (by decide) rfl rfl rfl rfl rfl rfl

/-- C6 counterexample: a concrete entry whose dispatch succeeds — the
scheduler invokes the next-occurrence scheduling, but the entry's own
status stays processing; it is not set to completed. -/
theorem c6_counterexample :
    (processScheduledCall
      [{ id := 1, userId := 7, scheduledFor := 0, status := .pending,
         attemptCount := 0, maxAttempts := 3 }]
      { id := 1, userId := 7, scheduledFor := 0, status := .pending,
        attemptCount := 0, maxAttempts := 3 }
      { phoneNumber := some "+15551234567", phoneVerified := true,
        checkinSchedule := [{ day := some 1, time := some "09:00" }] }
      { freshId := 2, trigger := .success }).scheduleNextInvoked = true ∧
    ((processScheduledCall
      [{ id := 1, userId := 7, scheduledFor := 0, status := .pending,
         attemptCount := 0, maxAttempts := 3 }]
      { id := 1, userId := 7, scheduledFor := 0, status := .pending,
        attemptCount := 0, maxAttempts := 3 }
      { phoneNumber := some "+15551234567", phoneVerified := true,
        checkinSchedule := [{ day := some 1, time := some "09:00" }] }
      { freshId := 2, trigger := .success }).store.filter fun x =>
        decide (x.id = 1)).map ScheduledCall.status = [.processing] := by
  decide

/-- C6 (amended): on a successful dispatch the scheduler invokes the
next-occurrence scheduling for the user, but leaves the entry's own status
as processing with the incremented attempt count — completion of the entry
is deferred to the call-completion path, not performed by the
dispatcher. -/
theorem c6_success_schedules_next_but_leaves_processing
    (store : List ScheduledCall) (e : ScheduledCall) (s : UserSettingsD)
    (env : ProcEnv) (he : e ∈ store)
    (hen : s.callsEnabled = true) (hph : phoneFalsy s.phoneNumber = false)
    (hver : s.phoneVerified = true) (htr : env.trigger = .success)
    (hcw : env.claimWriteRaises = false) :
    (processScheduledCall store e s env).scheduleNextInvoked = true ∧
    (processScheduledCall store e s env).raised = false ∧
    ∃ e', e' ∈ (processScheduledCall store e s env).store ∧ e'.id = e.id ∧
      e'.status = .processing ∧ e'.attemptCount = e.attemptCount + 1 := by
  rw [processScheduledCall_success_eq store e s env hcw hen hph hver htr]
  refine ⟨rfl, rfl,
    applySCUpdate
      { status := some .processing, lastAttemptAt := some env.nowUtc,
        attemptCount := some (e.attemptCount + 1) } e, ?_, ?_, rfl, rfl⟩
  · exact scheduleNextForUser_mem_mono _ e.userId s env _
      (update_scheduled_call_mem_new store e.id _ e he rfl)
  · rw [applySCUpdate_id]

/-- C6 witness: the amended theorem at the counterexample's concrete
input. -/
theorem c6_witness :
    (processScheduledCall
      [{ id := 1, userId := 7, scheduledFor := 0, status := .pending,
         attemptCount := 0, maxAttempts := 3 }]
      { id := 1, userId := 7, scheduledFor := 0, status := .pending,
        attemptCount := 0, maxAttempts := 3 }
      { phoneNumber := some "+15551234567", phoneVerified := true,
        checkinSchedule := [{ day := some 1, time := some "09:00" }] }
      { freshId := 2, trigger := .success }).scheduleNextInvoked = true ∧
    (processScheduledCall
      [{ id := 1, userId := 7, scheduledFor := 0, status := .pending,
         attemptCount := 0, maxAttempts := 3 }]
      { id := 1, userId := 7, scheduledFor := 0, status := .pending,
        attemptCount := 0, maxAttempts := 3 }
      { phoneNumber := some "+15551234567", phoneVerified := true,
        checkinSchedule := [{ day := some 1, time := some "09:00" }] }
      { freshId := 2, trigger := .success }).raised = false ∧
    ∃ e', e' ∈ (processScheduledCall
      [{ id := 1, userId := 7, scheduledFor := 0, status := .pending,
         attemptCount := 0, maxAttempts := 3 }]
      { id := 1, userId := 7, scheduledFor := 0, status := .pending,
        attemptCount := 0, maxAttempts := 3 }
      { phoneNumber := some "+15551234567", phoneVerified := true,
        checkinSchedule := [{ day := some 1, time := some "09:00" }] }
      { freshId := 2, trigger := .success }).store ∧ e'.id = 1 ∧
      e'.status = .processing ∧ e'.attemptCount = 0 + 1 :=
  c6_success_schedules_next_but_leaves_processing _ _ _ _
    (List.mem_singleton.mpr rfl) rfl rfl rfl rfl rfl

theorem processScheduledCall_raised_false (store : List ScheduledCall)
    (snap : ScheduledCall) (s : UserSettingsD) (env : ProcEnv)
    (hhw : env.handlerWriteRaises = false) :
    (processScheduledCall store snap s env).raised = false := by
  unfold processScheduledCall retryHandler
  rw [hhw]
  simp only [Bool.false_eq_true, if_false]
  split
  · split <;> rfl
  · split
    · split
      · split <;> rfl
      · rfl
    · split
      · split
        · split <;> rfl
        · rfl
      · split <;> first | rfl | (split <;> rfl)

/-- C10 counterexample: two due entries; processing the first raises and
the retry-policy status write raises as well, so the exception escapes to
the cycle-level handler and the second entry is not processed in this
cycle. -/
theorem c10_counterexample :
    (runCycle
      [{ id := 1, userId := 7, scheduledFor := 0, status := .pending,
         attemptCount := 0, maxAttempts := 3 },
       { id := 2, userId := 8, scheduledFor := 0, status := .pending,
         attemptCount := 0, maxAttempts := 3 }]
      [({ id := 1, userId := 7, scheduledFor := 0, status := .pending,
          attemptCount := 0, maxAttempts := 3 },
        { phoneNumber := some "+15551234567", phoneVerified := true },
        { trigger := .raises, handlerWriteRaises := true }),
       ({ id := 2, userId := 8, scheduledFor := 0, status := .pending,
          attemptCount := 0, maxAttempts := 3 },
        { phoneNumber := some "+15551234567", phoneVerified := true },
        { trigger := .returnsNone })]).2 = [1] := by
  decide

/-- C10 (amended): a failure while processing one entry is caught inside
_process_scheduled_call and the remaining due entries are still processed,
provided the retry-policy status write itself does not raise; every entry
of the cycle is processed whenever each entry's handler write succeeds. -/
theorem c10_all_entries_processed_when_handler_writes_succeed
    (store : List ScheduledCall)
    (jobs : List (ScheduledCall × UserSettingsD × ProcEnv))
    (h : ∀ j ∈ jobs, j.2.2.handlerWriteRaises = false) :
    (runCycle store jobs).2 = jobs.map fun j => j.1.id := by
  induction jobs generalizing store with
  | nil => rfl
  | cons j rest ih =>
    obtain ⟨snap, s, env⟩ := j
    have hr := processScheduledCall_raised_false store snap s env
      (h _ (List.mem_cons_self _ _))
    unfold runCycle
    simp only [hr, Bool.false_eq_true, if_false, List.map_cons,
      List.cons.injEq, true_and]
    exact ih _ fun x hx => h x (List.mem_cons_of_mem _ hx)

/-- C10 witness: the amended theorem at a concrete two-entry cycle in which
the first entry's dispatch raises but the retry write succeeds — both
entries are processed. -/
theorem c10_witness :
    (runCycle
      [{ id := 1, userId := 7, scheduledFor := 0, status := .pending,
         attemptCount := 0, maxAttempts := 3 },
       { id := 2, userId := 8, scheduledFor := 0, status := .pending,
         attemptCount := 0, maxAttempts := 3 }]
      [({ id := 1, userId := 7, scheduledFor := 0, status := .pending,
          attemptCount := 0, maxAttempts := 3 },
        { phoneNumber := some "+15551234567", phoneVerified := true },
        { trigger := .raises }),
       ({ id := 2, userId := 8, scheduledFor := 0, status := .pending,
          attemptCount := 0, maxAttempts := 3 },
        { phoneNumber := some "+15551234567", phoneVerified := true },
        { trigger := .returnsNone })]).2 = [1, 2] :=
  c10_all_entries_processed_when_handler_writes_succeed _ _ (by decide)

theorem createAllGo_ok (userId : Nat) (off : Int) (nowLocal : Nat)
    (sched : List ScheduleEntry) :
    ∀ i : Nat, (∀ e ∈ sched, slotResult nowLocal e ≠ .crash) →
      ∃ l, createAllGo userId off nowLocal i sched = .ok l := by
  induction sched with
  | nil => exact fun i _ => ⟨[], rfl⟩
  | cons a rest ih =>
    intro i hok
    obtain ⟨tl, htl⟩ := ih (i + 1) fun e he => hok e (List.mem_cons_of_mem _ he)
    obtain ⟨tl0, htl0⟩ := ih i fun e he => hok e (List.mem_cons_of_mem _ he)
    simp only [createAllGo]
    rcases hsr : slotResult nowLocal a with _ | _ | ⟨t, hh, mm⟩
    · exact ⟨tl0, htl0⟩
    · exact absurd hsr (hok a (List.mem_cons_self a rest))
    · rw [htl]
      exact ⟨_, rfl⟩

theorem createAllGo_shape (userId : Nat) (off : Int) (nowLocal : Nat)
    (sched : List ScheduleEntry) :
    ∀ (i : Nat) (l : List ScheduledCall),
      createAllGo userId off nowLocal i sched = .ok l →
      ∀ x ∈ l, x.userId = userId ∧ x.status = .pending ∧
        x.attemptCount = 0 ∧ x.maxAttempts = 3 := by
  induction sched with
  | nil =>
    intro i l h x hx
    simp only [createAllGo] at h
    injection h with h'
    subst h'
    exact absurd hx (List.not_mem_nil x)
  | cons a rest ih =>
    intro i l h x hx
    simp only [createAllGo] at h
    rcases hsr : slotResult nowLocal a with _ | _ | ⟨t, hh, mm⟩ <;> rw [hsr] at h
    · exact ih i l h x hx
    · exact Except.noConfusion h
    · rcases hrec : createAllGo userId off nowLocal (i + 1) rest with _ | tl <;>
        rw [hrec] at h
      · exact Except.noConfusion h
      · injection h with h'
        subst h'
        rcases List.mem_cons.mp hx with hx1 | hx2
        · subst hx1
          exact ⟨rfl, rfl, rfl, rfl⟩
        · exact ih (i + 1) tl hrec x hx2

theorem createAllGo_scheduledFor_indep (userId : Nat) (off : Int)
    (nowLocal : Nat) (sched : List ScheduleEntry) :
    ∀ (i j : Nat) (l1 l2 : List ScheduledCall),
      createAllGo userId off nowLocal i sched = .ok l1 →
      createAllGo userId off nowLocal j sched = .ok l2 →
      l1.map ScheduledCall.scheduledFor = l2.map ScheduledCall.scheduledFor := by
  induction sched with
  | nil =>
    intro i j l1 l2 h1 h2
    simp only [createAllGo] at h1 h2
    injection h1 with h1'
    injection h2 with h2'
    subst h1'
    subst h2'
    rfl
  | cons a rest ih =>
    intro i j l1 l2 h1 h2
    simp only [createAllGo] at h1 h2
    rcases hsr : slotResult nowLocal a with _ | _ | ⟨t, hh, mm⟩ <;>
      rw [hsr] at h1 h2
    · exact ih i j l1 l2 h1 h2
    · exact Except.noConfusion h1
    · rcases hr1 : createAllGo userId off nowLocal (i + 1) rest with _ | tl1 <;>
        rw [hr1] at h1
      · exact Except.noConfusion h1
      rcases hr2 : createAllGo userId off nowLocal (j + 1) rest with _ | tl2 <;>
        rw [hr2] at h2
      · exact Except.noConfusion h2
      injection h1 with h1'
      injection h2 with h2'
      subst h1'
      subst h2'
      simp only [List.map_cons, List.cons.injEq]
      exact ⟨trivial, ih (i + 1) (j + 1) tl1 tl2 hr1 hr2⟩

theorem pendingFor_cancel (u : Nat) (store : List ScheduledCall) :
    pendingFor u (cancelPendingFor u store) = [] := by
  unfold pendingFor cancelPendingFor
  rw [List.filter_eq_nil]
  intro a ha
  rw [List.mem_map] at ha
  obtain ⟨y, hy, rfl⟩ := ha
  by_cases hc : y.userId = u ∧ y.status = .pending
  · rw [if_pos hc]
    simp
  · rw [if_neg hc]
    simpa using hc

theorem pendingFor_append (u : Nat) (l1 l2 : List ScheduledCall) :
    pendingFor u (l1 ++ l2) = pendingFor u l1 ++ pendingFor u l2 :=
  List.filter_append l1 l2

theorem pendingFor_all (u : Nat) (l : List ScheduledCall)
    (h : ∀ x ∈ l, x.userId = u ∧ x.status = .pending) :
    pendingFor u l = l := by
  unfold pendingFor
  rw [List.filter_eq_self]
  intro a ha
  simpa using h a ha

/-- C7 counterexample: with one configured slot and no time elapsed, the
second run of the schedule sync cancels one entry (the one the first run
created) and inserts one replacement — the second run's cancel and insert
sets are not empty. -/
theorem c7_counterexample :
    (okOr (syncScheduledCalls
      (okOr (syncScheduledCalls [] 7 0
        { checkinSchedule := [{ day := some 1, time := some "09:00" }] } 0)
        ([], [], 0)).1
      7 1 { checkinSchedule := [{ day := some 1, time := some "09:00" }] } 0)
      ([], [], 0)).2.2 = 1 ∧
    (okOr (syncScheduledCalls
      (okOr (syncScheduledCalls [] 7 0
        { checkinSchedule := [{ day := some 1, time := some "09:00" }] } 0)
        ([], [], 0)).1
      7 1 { checkinSchedule := [{ day := some 1, time := some "09:00" }] } 0)
      ([], [], 0)).2.1.length = 1 := by
  decide

/-- C7 (amended): sync_scheduled_calls is not a diffing reconciler — each
run cancels every pending entry of the user and recreates the full target
set, so a second run with no time elapsed cancels exactly the entries the
first run created (one per slot, not zero) and inserts equal replacements;
the operation is idempotent only in that the user's pending set of
scheduled_for instants is unchanged. -/
theorem c7_second_sync_cancels_what_first_created
    (store : List ScheduledCall) (userId id1 id2 : Nat) (s : UserSettingsD)
    (nowLocal : Nat)
    (hok : ∀ e ∈ s.checkinSchedule, slotResult nowLocal e ≠ .crash) :
    ∃ st1 created1 n1 st2 created2 n2,
      syncScheduledCalls store userId id1 s nowLocal =
        .ok (st1, created1, n1) ∧
      syncScheduledCalls st1 userId id2 s nowLocal =
        .ok (st2, created2, n2) ∧
      n2 = created1.length ∧
      created2.map ScheduledCall.scheduledFor =
        created1.map ScheduledCall.scheduledFor ∧
      (pendingFor userId st2).map ScheduledCall.scheduledFor =
        (pendingFor userId st1).map ScheduledCall.scheduledFor := by
  by_cases hdis : ¬s.checkinEnabled ∨ s.checkinSchedule = []
  · refine ⟨cancelPendingFor userId store, [], (pendingFor userId store).length,
      cancelPendingFor userId (cancelPendingFor userId store), [],
      (pendingFor userId (cancelPendingFor userId store)).length, ?_, ?_, ?_, rfl, ?_⟩
    · unfold syncScheduledCalls
      rw [if_pos hdis]
    · unfold syncScheduledCalls
      rw [if_pos hdis]
    · rw [pendingFor_cancel]
    · rw [pendingFor_cancel, pendingFor_cancel]
  · obtain ⟨l1, hl1⟩ := createAllGo_ok userId s.tzOffset nowLocal
      s.checkinSchedule id1 hok
    obtain ⟨l2, hl2⟩ := createAllGo_ok userId s.tzOffset nowLocal
      s.checkinSchedule id2 hok
    have hshape1 := createAllGo_shape userId s.tzOffset nowLocal
      s.checkinSchedule id1 l1 hl1
    have hshape2 := createAllGo_shape userId s.tzOffset nowLocal
      s.checkinSchedule id2 l2 hl2
    have hca1 : create_all_scheduled_calls id1 userId s.checkinSchedule
        s.tzOffset nowLocal s.checkinEnabled = .ok l1 := by
      unfold create_all_scheduled_calls
      rw [if_neg hdis]
      exact hl1
    have hca2 : create_all_scheduled_calls id2 userId s.checkinSchedule
        s.tzOffset nowLocal s.checkinEnabled = .ok l2 := by
      unfold create_all_scheduled_calls
      rw [if_neg hdis]
      exact hl2
    have hp1 : pendingFor userId l1 = l1 :=
      pendingFor_all userId l1 fun x hx => ⟨(hshape1 x hx).1, (hshape1 x hx).2.1⟩
    have hp2 : pendingFor userId l2 = l2 :=
      pendingFor_all userId l2 fun x hx => ⟨(hshape2 x hx).1, (hshape2 x hx).2.1⟩
    refine ⟨cancelPendingFor userId store ++ l1, l1,
      (pendingFor userId store).length,
      cancelPendingFor userId (cancelPendingFor userId store ++ l1) ++ l2, l2,
      (pendingFor userId (cancelPendingFor userId store ++ l1)).length,
      ?_, ?_, ?_, ?_, ?_⟩
    · unfold syncScheduledCalls
      rw [if_neg hdis, hca1]
    · unfold syncScheduledCalls
      rw [if_neg hdis, hca2]
    · rw [pendingFor_append, pendingFor_cancel, hp1]
      rfl
    · exact createAllGo_scheduledFor_indep userId s.tzOffset nowLocal
        s.checkinSchedule id2 id1 l2 l1 hl2 hl1
    · rw [pendingFor_append, pendingFor_cancel, hp2, pendingFor_append,
        pendingFor_cancel, hp1]
      simp only [List.nil_append]
      exact createAllGo_scheduledFor_indep userId s.tzOffset nowLocal
        s.checkinSchedule id2 id1 l2 l1 hl2 hl1

/-- C7 witness: the amended theorem at the counterexample's concrete
configuration. -/
theorem c7_witness :
    ∃ st1 created1 n1 st2 created2 n2,
      syncScheduledCalls [] 7 0
        { checkinSchedule := [{ day := some 1, time := some "09:00" }] } 0 =
        .ok (st1, created1, n1) ∧
      syncScheduledCalls st1 7 1
        { checkinSchedule := [{ day := some 1, time := some "09:00" }] } 0 =
        .ok (st2, created2, n2) ∧
      n2 = created1.length ∧
      created2.map ScheduledCall.scheduledFor =
        created1.map ScheduledCall.scheduledFor ∧
      (pendingFor 7 st2).map ScheduledCall.scheduledFor =
        (pendingFor 7 st1).map ScheduledCall.scheduledFor :=
  c7_second_sync_cancels_what_first_created [] 7 0 1
    { checkinSchedule := [{ day := some 1, time := some "09:00" }] } 0
    (by decide)

theorem candLocal_gt (nowLocal : Nat) (d : Int) (h m : Nat) :
    nowLocal < candLocal nowLocal d h m := by
  unfold candLocal candBase daysAhead targetWeekday pyWeekday secsPerDay
    secsPerWeek
  split_ifs <;> omega

theorem candLocal_fields (nowLocal : Nat) (d : Int) (h m : Nat)
    (hd0 : 0 ≤ d) (hd6 : d ≤ 6) (hh : h ≤ 23) (hm : m ≤ 59) :
    scheduleDay (candLocal nowLocal d h m) = d.toNat ∧
    candLocal nowLocal d h m % secsPerDay / 3600 = h ∧
    candLocal nowLocal d h m % 3600 / 60 = m := by
  unfold scheduleDay candLocal candBase daysAhead targetWeekday pyWeekday
    secsPerDay secsPerWeek
  refine ⟨?_, ?_, ?_⟩ <;> split_ifs <;> omega

theorem candLocal_eq_now_rolls_week (nowLocal : Nat) (d : Int) (h m : Nat)
    (hd0 : 0 ≤ d) (hd6 : d ≤ 6)
    (hwd : pyWeekday nowLocal = (targetWeekday d).toNat)
    (htime : nowLocal % secsPerDay = h * 3600 + m * 60) :
    candLocal nowLocal d h m = nowLocal + secsPerWeek := by
  have hτ0 : 0 ≤ targetWeekday d := by
    unfold targetWeekday
    split <;> omega
  have hda : daysAhead d (pyWeekday nowLocal) = 0 := by
    unfold daysAhead
    rw [hwd, Int.toNat_of_nonneg hτ0]
    simp
  unfold candLocal
  rw [hda]
  unfold candBase secsPerDay secsPerWeek
  unfold secsPerDay at htime
  split_ifs <;> omega

theorem parseTime_ne_empty (ts : String) (h m : Nat)
    (hparse : parseTime ts = some (h, m)) : ts ≠ "" := by
  intro hc
  rw [hc] at hparse
  rw [(rfl : parseTime "" = none)] at hparse
  exact Option.noConfusion hparse

theorem slotResult_wf (nowLocal : Nat) (e : ScheduleEntry) (d : Int)
    (ts : String) (h m : Nat) (hday : e.day = some d) (hts : e.time = some ts)
    (hparse : parseTime ts = some (h, m)) (hh : h ≤ 23) (hm : m ≤ 59) :
    slotResult nowLocal e = .cand (candLocal nowLocal d h m) h m := by
  have hne : ts ≠ "" := parseTime_ne_empty ts h m hparse
  unfold slotResult
  rw [hday, hts]
  simp only [if_neg hne, hparse]
  rw [if_neg (by omega : ¬(23 < h ∨ 59 < m))]

/-- C4: when the current local time falls exactly on a slot's configured
weekday and HH:MM (seconds at zero), the candidate comparison
`candidate ≤ now_local` holds with equality and the computed occurrence is
rolled forward exactly 7 days — the slot never fires at the instant of
equality. -/
theorem c4_equality_rolls_forward_seven_days (nowLocal : Nat)
    (e : ScheduleEntry) (d : Int) (ts : String) (h m : Nat)
    (hday : e.day = some d) (hts : e.time = some ts)
    (hparse : parseTime ts = some (h, m))
    (hd0 : 0 ≤ d) (hd6 : d ≤ 6) (hh : h ≤ 23) (hm : m ≤ 59)
    (hwd : pyWeekday nowLocal = (targetWeekday d).toNat)
    (htime : nowLocal % secsPerDay = h * 3600 + m * 60) :
    slotResult nowLocal e = .cand (nowLocal + secsPerWeek) h m ∧
    nowLocal + secsPerWeek ≠ nowLocal := by
  constructor
  · rw [slotResult_wf nowLocal e d ts h m hday hts hparse hh hm,
      candLocal_eq_now_rolls_week nowLocal d h m hd0 hd6 hwd htime]
  · unfold secsPerWeek
    omega

/-- C4 witness: a Monday 09:00 slot evaluated when local time is exactly
Monday 09:00 produces the occurrence one week later. -/
theorem c4_witness :
    slotResult 32400 { day := some 1, time := some "09:00" } =
      .cand (32400 + secsPerWeek) 9 0 ∧
    32400 + secsPerWeek ≠ 32400 :=
  c4_equality_rolls_forward_seven_days 32400
    { day := some 1, time := some "09:00" } 1 "09:00" 9 0 rfl rfl (by decide)
    (by decide) (by decide) (by decide) (by decide) (by decide) (by decide)

theorem wellFormedSlot_elim (e : ScheduleEntry)
    (hwf : wellFormedSlot e = true) :
    ∃ d ts h m, e.day = some d ∧ e.time = some ts ∧
      parseTime ts = some (h, m) ∧ 0 ≤ d ∧ d ≤ 6 ∧ h ≤ 23 ∧ m ≤ 59 := by
  obtain ⟨od, ot⟩ := e
  cases od with
  | none => exact absurd hwf (by simp [wellFormedSlot])
  | some d =>
    cases ot with
    | none => exact absurd hwf (by simp [wellFormedSlot])
    | some ts =>
      unfold wellFormedSlot at hwf
      dsimp only at hwf
      rcases hp : parseTime ts with _ | ⟨h, m⟩ <;> rw [hp] at hwf
      · exact Bool.noConfusion hwf
      · have hb := of_decide_eq_true hwf
        exact ⟨d, ts, h, m, rfl, rfl, hp, hb.1, hb.2.1, hb.2.2.1, hb.2.2.2⟩

theorem slotMatches_cand (e : ScheduleEntry) (d : Int) (ts : String)
    (h m : Nat) (nowLocal : Nat) (hday : e.day = some d)
    (hts : e.time = some ts) (hparse : parseTime ts = some (h, m))
    (hd0 : 0 ≤ d) (hd6 : d ≤ 6) (hh : h ≤ 23) (hm : m ≤ 59) :
    slotMatches e (candLocal nowLocal d h m) = true := by
  obtain ⟨hd', hh', hm'⟩ := candLocal_fields nowLocal d h m hd0 hd6 hh hm
  unfold slotMatches
  rw [hday, hts]
  simp only [hparse]
  apply decide_eq_true
  refine ⟨?_, hh', hm'⟩
  omega

theorem slotMatches_key (e : ScheduleEntry) (t : Nat)
    (hsm : slotMatches e t = true) :
    slotKey e =
      some ((scheduleDay t : Int), t % secsPerDay / 3600, t % 3600 / 60) := by
  obtain ⟨od, ot⟩ := e
  cases od with
  | none => exact absurd hsm (by simp [slotMatches])
  | some d =>
    cases ot with
    | none => exact absurd hsm (by simp [slotMatches])
    | some ts =>
      unfold slotMatches at hsm
      unfold slotKey
      dsimp only at hsm ⊢
      rcases hp : parseTime ts with _ | ⟨h, m⟩ <;> rw [hp] at hsm
      · exact Bool.noConfusion hsm
      · have hb := of_decide_eq_true hsm
        dsimp only [Option.map]
        rw [hb.1, hb.2.1, hb.2.2]

theorem slotResult_cand_gt (now : Nat) (e : ScheduleEntry) (c h m : Nat)
    (hsr : slotResult now e = .cand c h m) : now < c := by
  obtain ⟨od, ot⟩ := e
  cases od with
  | none => exact absurd hsr (by simp [slotResult])
  | some d =>
    cases ot with
    | none => exact absurd hsr (by simp [slotResult])
    | some ts =>
      unfold slotResult at hsr
      dsimp only at hsr
      by_cases hts : ts = ""
      · rw [if_pos hts] at hsr
        exact SlotResult.noConfusion hsr
      rw [if_neg hts] at hsr
      rcases hp : parseTime ts with _ | ⟨h', m'⟩ <;> rw [hp] at hsr <;>
        dsimp only at hsr
      · exact SlotResult.noConfusion hsr
      by_cases hr : 23 < h' ∨ 59 < m'
      · rw [if_pos hr] at hsr
        exact SlotResult.noConfusion hsr
      · rw [if_neg hr] at hsr
        injection hsr with h1 h2 h3
        rw [← h1]
        exact candLocal_gt now d h' m'

theorem nextCallLocal_ok (sched : List ScheduleEntry) (now : Nat) :
    ∀ acc, (∀ e ∈ sched, slotResult now e ≠ .crash) →
      ∃ r, nextCallLocal sched now acc = .ok r := by
  induction sched with
  | nil => exact fun acc _ => ⟨acc, rfl⟩
  | cons a rest ih =>
    intro acc hok
    simp only [nextCallLocal]
    rcases hsr : slotResult now a with _ | _ | ⟨c, hh, mm⟩
    · exact ih acc fun e he => hok e (List.mem_cons_of_mem _ he)
    · exact absurd hsr (hok a (List.mem_cons_self _ _))
    · cases acc with
      | none => exact ih _ fun e he => hok e (List.mem_cons_of_mem _ he)
      | some b => exact ih _ fun e he => hok e (List.mem_cons_of_mem _ he)

theorem nextCallLocal_some_elim (sched : List ScheduleEntry) (now : Nat) :
    ∀ acc v, nextCallLocal sched now acc = .ok (some v) →
      (∃ e ∈ sched, ∃ h m, slotResult now e = .cand v h m) ∨ acc = some v := by
  induction sched with
  | nil =>
    intro acc v h
    simp only [nextCallLocal] at h
    injection h with h'
    exact Or.inr h'
  | cons a rest ih =>
    intro acc v h
    simp only [nextCallLocal] at h
    rcases hsr : slotResult now a with _ | _ | ⟨c, hh, mm⟩ <;> rw [hsr] at h
    · rcases ih acc v h with h1 | h2
      · obtain ⟨e, he, hm⟩ := h1
        exact Or.inl ⟨e, List.mem_cons_of_mem _ he, hm⟩
      · exact Or.inr h2
    · exact Except.noConfusion h
    · cases acc with
      | none =>
        rcases ih _ v h with h1 | h2
        · obtain ⟨e, he, hm⟩ := h1
          exact Or.inl ⟨e, List.mem_cons_of_mem _ he, hm⟩
        · injection h2 with h2'
          exact Or.inl ⟨a, List.mem_cons_self _ _, hh, mm, h2' ▸ hsr⟩
      | some b =>
        rcases ih _ v h with h1 | h2
        · obtain ⟨e, he, hm⟩ := h1
          exact Or.inl ⟨e, List.mem_cons_of_mem _ he, hm⟩
        · injection h2 with h2'
          by_cases hcb : c < b
          · rw [if_pos hcb] at h2'
            exact Or.inl ⟨a, List.mem_cons_self _ _, hh, mm, h2' ▸ hsr⟩
          · rw [if_neg hcb] at h2'
            exact Or.inr (by rw [h2'])

theorem nextCallLocal_none_elim (sched : List ScheduleEntry) (now : Nat) :
    ∀ acc, nextCallLocal sched now acc = .ok none →
      acc = none ∧ ∀ e ∈ sched, ∀ c h m, slotResult now e ≠ .cand c h m := by
  induction sched with
  | nil =>
    intro acc h
    simp only [nextCallLocal] at h
    injection h with h'
    exact ⟨h', fun e he => absurd he (List.not_mem_nil e)⟩
  | cons a rest ih =>
    intro acc h
    simp only [nextCallLocal] at h
    rcases hsr : slotResult now a with _ | _ | ⟨c, hh, mm⟩ <;> rw [hsr] at h
    · obtain ⟨hacc, hall⟩ := ih acc h
      refine ⟨hacc, ?_⟩
      intro e he c' h' m'
      rcases List.mem_cons.mp he with he1 | he2
      · subst he1
        rw [hsr]
        exact fun hc => SlotResult.noConfusion hc
      · exact hall e he2 c' h' m'
    · exact Except.noConfusion h
    · cases acc with
      | none =>
        obtain ⟨hacc, _⟩ := ih _ h
        exact Option.noConfusion hacc
      | some b =>
        obtain ⟨hacc, _⟩ := ih _ h
        exact Option.noConfusion hacc

theorem filter_length_eq_one {α β : Type} [DecidableEq β] (l : List α)
    (p : α → Bool) (key : α → β) (hnd : (l.map key).Nodup) (x : α)
    (hx : x ∈ l) (hpx : p x = true)
    (hkey : ∀ y ∈ l, p y = true → key y = key x) :
    (l.filter p).length = 1 := by
  induction l with
  | nil => exact absurd hx (List.not_mem_nil x)
  | cons a rest ih =>
    rw [List.map_cons, List.nodup_cons] at hnd
    by_cases hpa : p a = true
    · rw [List.filter_cons_of_pos hpa]
      have hka : key a = key x := hkey a (List.mem_cons_self _ _) hpa
      have hrest : rest.filter p = [] := by
        rw [List.filter_eq_nil]
        intro y hy hpy
        have hky : key y = key x := hkey y (List.mem_cons_of_mem _ hy) hpy
        exact hnd.1 (by
          rw [hka, ← hky]
          exact List.mem_map_of_mem key hy)
      rw [hrest]
      rfl
    · rw [List.filter_cons_of_neg (by simpa using hpa)]
      have hxr : x ∈ rest := by
        rcases List.mem_cons.mp hx with h1 | h2
        · subst h1
          exact absurd hpx hpa
        · exact h2
      exact ih hnd.2 hxr fun y hy hpy =>
        hkey y (List.mem_cons_of_mem _ hy) hpy

/-- C3 counterexample: a schedule containing a well-formed slot (Wednesday
23:00) together with an out-of-range day value 8 at "06:00", evaluated on a
Monday at 05:00 local (offset -18000): the code does not exclude the
out-of-range slot, that slot wins the minimum, and the chosen occurrence
(Monday 06:00 local) matches no configured slot's weekday and time —
not exactly one. -/
theorem c3_counterexample :
    schedule_next_call 10 1
      [{ day := some 8, time := some "06:00" },
       { day := some 3, time := some "23:00" }] (-18000) 18000 true =
      .ok (some { id := 10, userId := 1,
                  scheduledFor := utcOfLocal (-18000) 21600,
                  timeWindow := "morning", status := .pending,
                  attemptCount := 0, maxAttempts := 3 }) ∧
    wellFormedSlot { day := some 3, time := some "23:00" } = true ∧
    countMatches
      [{ day := some 8, time := some "06:00" },
       { day := some 3, time := some "23:00" }] 21600 = 0 := by
  decide

/-- C3 (amended): for every nonempty schedule all of whose slots are
well-formed (day 0..6 and parsable in-range HH:MM) and pairwise distinct in
weekday-and-time, schedule_next_call returns an entry whose UTC instant is
strictly after now (in the fixed-offset timezone model) and whose local
instant matches exactly one configured slot's weekday and time.  The
all-well-formed restriction is forced by the counterexample: the code does
not exclude out-of-range day values, and such a slot can win the minimum
and match no configured slot. -/
theorem c3_next_occurrence_future_and_matches_one_slot
    (sched : List ScheduleEntry) (off : Int) (nowLocal freshId userId : Nat)
    (hne : sched ≠ [])
    (hwf : ∀ e ∈ sched, wellFormedSlot e = true)
    (hnd : (sched.map slotKey).Nodup) :
    ∃ entry t, schedule_next_call freshId userId sched off nowLocal true =
        .ok (some entry) ∧
      entry.scheduledFor = utcOfLocal off t ∧
      nowLocal < t ∧
      utcOfLocal off nowLocal < entry.scheduledFor ∧
      countMatches sched t = 1 := by
  have hnc : ∀ e ∈ sched, slotResult nowLocal e ≠ .crash := by
    intro e he
    obtain ⟨d, ts, h, m, hday, hts, hp, hd0, hd6, hh, hm⟩ :=
      wellFormedSlot_elim e (hwf e he)
    rw [slotResult_wf nowLocal e d ts h m hday hts hp hh hm]
    intro hc
    exact SlotResult.noConfusion hc
  obtain ⟨r, hr⟩ := nextCallLocal_ok sched nowLocal none hnc
  cases r with
  | none =>
    exfalso
    obtain ⟨e0, he0⟩ : ∃ e0, e0 ∈ sched := by
      cases sched with
      | nil => exact absurd rfl hne
      | cons a rest => exact ⟨a, List.mem_cons_self _ _⟩
    obtain ⟨d, ts, h, m, hday, hts, hp, hd0, hd6, hh, hm⟩ :=
      wellFormedSlot_elim e0 (hwf e0 he0)
    exact (nextCallLocal_none_elim sched nowLocal none hr).2 e0 he0 _ h m
      (slotResult_wf nowLocal e0 d ts h m hday hts hp hh hm)
  | some v =>
    rcases nextCallLocal_some_elim sched nowLocal none v hr with
      ⟨e0, he0, hc, mc, hsr⟩ | habs
    swap
    · exact Option.noConfusion habs
    obtain ⟨d, ts, h, m, hday, hts, hp, hd0, hd6, hh, hm⟩ :=
      wellFormedSlot_elim e0 (hwf e0 he0)
    have hsr' := slotResult_wf nowLocal e0 d ts h m hday hts hp hh hm
    rw [hsr'] at hsr
    injection hsr with h1 h2 h3
    have hv : nowLocal < v := h1 ▸ candLocal_gt nowLocal d h m
    have hsm0 : slotMatches e0 v = true :=
      h1 ▸ slotMatches_cand e0 d ts h m nowLocal hday hts hp hd0 hd6 hh hm
    refine ⟨{ id := freshId, userId := userId,
              scheduledFor := utcOfLocal off v,
              timeWindow := timeWindow ((v % secsPerDay) / 3600),
              status := .pending, attemptCount := 0, maxAttempts := 3 },
      v, ?_, rfl, hv, ?_, ?_⟩
    · unfold schedule_next_call
      rw [if_neg (by simp [hne]), hr]
    · unfold utcOfLocal
      dsimp only
      omega
    · unfold countMatches
      refine filter_length_eq_one sched _ slotKey hnd e0 he0 hsm0 ?_
      intro y hy hpy
      rw [slotMatches_key y _ hpy, slotMatches_key e0 _ hsm0]

/-- C3 witness: the amended theorem at a single Monday 09:00 slot with
offset -18000 and a Wednesday-10:00 local now. -/
theorem c3_witness :
    ∃ entry t, schedule_next_call 0 1
        [{ day := some 1, time := some "09:00" }] (-18000) 208800 true =
        .ok (some entry) ∧
      entry.scheduledFor = utcOfLocal (-18000) t ∧
      208800 < t ∧
      utcOfLocal (-18000) 208800 < entry.scheduledFor ∧
      countMatches [{ day := some 1, time := some "09:00" }] t = 1 :=
  c3_next_occurrence_future_and_matches_one_slot
    [{ day := some 1, time := some "09:00" }] (-18000) 208800 0 1
    (by decide) (by decide) (by decide)

theorem schedule_next_call_shape (freshId userId : Nat)
    (sched : List ScheduleEntry) (off : Int) (nowLocal : Nat)
    (enabled : Bool) (e : ScheduledCall)
    (h : schedule_next_call freshId userId sched off nowLocal enabled =
      .ok (some e)) :
    e.status = .pending ∧ e.attemptCount = 0 ∧ e.maxAttempts = 3 := by
  unfold schedule_next_call at h
  split at h
  · injection h with h'
    exact Option.noConfusion h'
  · rcases hn : nextCallLocal sched nowLocal none with u | r <;>
      rw [hn] at h <;> try dsimp only at h
    · exact Except.noConfusion h
    · cases r with
      | none =>
        injection h with h'
        exact Option.noConfusion h'
      | some t =>
        injection h with h'
        injection h' with h''
        subst h''
        exact ⟨rfl, rfl, rfl⟩

theorem create_all_shape (freshId userId : Nat) (sched : List ScheduleEntry)
    (off : Int) (nowLocal : Nat) (enabled : Bool) (l : List ScheduledCall)
    (h : create_all_scheduled_calls freshId userId sched off nowLocal
      enabled = .ok l) (x : ScheduledCall) (hx : x ∈ l) :
    x.status = .pending ∧ x.attemptCount = 0 ∧ x.maxAttempts = 3 := by
  unfold create_all_scheduled_calls at h
  split at h
  · injection h with h'
    subst h'
    exact absurd hx (List.not_mem_nil x)
  · have hs := createAllGo_shape userId off nowLocal sched freshId l h x hx
    exact ⟨hs.2.1, hs.2.2.1, hs.2.2.2⟩

theorem mem_update_singleton (x e0 : ScheduledCall) (i : Nat) (u : SCUpdate)
    (hid : e0.id = i)
    (hmem : x ∈ (update_scheduled_call [e0] i u).1) :
    x = applySCUpdate u e0 := by
  rw [update_scheduled_call_fst_mem] at hmem
  obtain ⟨y, hy, hx⟩ := hmem
  have hy0 : y = e0 := List.mem_singleton.mp hy
  subst hy0
  rw [if_pos hid] at hx
  exact hx

theorem mem_double_update_singleton (e0 x : ScheduledCall) (u1 u2 : SCUpdate)
    (hmem : x ∈ (update_scheduled_call
      (update_scheduled_call [e0] e0.id u1).1 e0.id u2).1) :
    x = applySCUpdate u2 (applySCUpdate u1 e0) := by
  rw [update_scheduled_call_fst_mem] at hmem
  obtain ⟨z, hz, hx⟩ := hmem
  have hz' := mem_update_singleton z e0 e0.id u1 rfl hz
  subst hz'
  rw [if_pos (by rw [applySCUpdate_id])] at hx
  exact hx

theorem scheduleNextForUser_mem_elim (store : List ScheduledCall) (uid : Nat)
    (s : UserSettingsD) (env : ProcEnv) (x : ScheduledCall)
    (hx : x ∈ scheduleNextForUser store uid s env) :
    x ∈ store ∨ schedule_next_call env.freshId uid s.checkinSchedule
      s.tzOffset env.nowLocal s.checkinEnabled = .ok (some x) := by
  unfold scheduleNextForUser at hx
  split at hx
  · exact Or.inl hx
  split at hx
  · exact Or.inl hx
  rcases hsn : schedule_next_call env.freshId uid s.checkinSchedule
      s.tzOffset env.nowLocal s.checkinEnabled with u | r <;>
    rw [hsn] at hx <;> try dsimp only at hx
  · exact Or.inl hx
  · cases r with
    | none => exact Or.inl hx
    | some e1 =>
      rcases List.mem_append.mp hx with h1 | h2
      · exact Or.inl h1
      · have he1 : x = e1 := List.mem_singleton.mp h2
        subst he1
        exact Or.inr rfl

/-- C9: every scheduled-call entry reachable through the source's
operations — created by the calculators with attempt_count 0 and
max_attempts 3, claimed/skipped/failed/retried by the dispatcher, marked
complete, or cancelled — satisfies attempt_count ≤ max_attempts, and a
pending entry always satisfies attempt_count < max_attempts, so no
reachable sequence of operations drives attempt_count above
max_attempts. -/
theorem c9_attempt_count_bounded (e : ScheduledCall)
    (h : ReachableEntry e) :
    e.attemptCount ≤ e.maxAttempts ∧
    (e.status = .pending → e.attemptCount < e.maxAttempts) := by
  induction h with
  | created freshId userId sched off nowLocal enabled e0 hsc =>
    obtain ⟨h1, h2, h3⟩ := schedule_next_call_shape freshId userId sched off
      nowLocal enabled e0 hsc
    rw [h2, h3]
    exact ⟨by omega, fun _ => by omega⟩
  | createdAll freshId userId sched off nowLocal enabled l e0 hca hmem0 =>
    obtain ⟨h1, h2, h3⟩ := create_all_shape freshId userId sched off nowLocal
      enabled l hca e0 hmem0
    rw [h2, h3]
    exact ⟨by omega, fun _ => by omega⟩
  | markedComplete e0 clid hre ih =>
    exact ⟨ih.1, fun hc => SCStatus.noConfusion hc⟩
  | cancelled e0 hre hpend ih =>
    exact ⟨ih.1, fun hc => SCStatus.noConfusion hc⟩
  | processed e0 s env e' hre hpend hmem ih =>
    have hac : e0.attemptCount < e0.maxAttempts := ih.2 hpend
    unfold processScheduledCall retryHandler at hmem
    dsimp only at hmem
    split at hmem
    · -- the claim write raises; the handler acts on the unclaimed store
      split at hmem
      · have h0 : e' = e0 := List.mem_singleton.mp hmem
        subst h0
        exact ih
      · split at hmem
        · have h0 := mem_update_singleton e' e0 e0.id _ rfl hmem
          subst h0
          exact ⟨ih.1, fun hc => SCStatus.noConfusion hc⟩
        · have h0 := mem_update_singleton e' e0 e0.id _ rfl hmem
          subst h0
          exact ⟨ih.1, fun _ => hac⟩
    · split at hmem
      · -- calls disabled: skip path
        split at hmem
        · -- the skip write raises; handler on the claimed store
          split at hmem
          · have h0 := mem_update_singleton e' e0 e0.id _ rfl hmem
            subst h0
            exact ⟨by
              show e0.attemptCount + 1 ≤ e0.maxAttempts
              omega, fun hc => SCStatus.noConfusion hc⟩
          · split at hmem
            · have h0 := mem_double_update_singleton e0 e' _ _ hmem
              subst h0
              exact ⟨by
                show e0.attemptCount + 1 ≤ e0.maxAttempts
                omega, fun hc => SCStatus.noConfusion hc⟩
            · next hmax =>
              have h0 := mem_double_update_singleton e0 e' _ _ hmem
              subst h0
              refine ⟨by
                show e0.attemptCount + 1 ≤ e0.maxAttempts
                omega, fun _ => ?_⟩
              show e0.attemptCount + 1 < e0.maxAttempts
              omega
        · have h0 := mem_double_update_singleton e0 e' _ _ hmem
          subst h0
          exact ⟨by
            show e0.attemptCount + 1 ≤ e0.maxAttempts
            omega, fun hc => SCStatus.noConfusion hc⟩
      · split at hmem
        · -- phone missing or unverified: skip path
          split at hmem
          · split at hmem
            · have h0 := mem_update_singleton e' e0 e0.id _ rfl hmem
              subst h0
              exact ⟨by
                show e0.attemptCount + 1 ≤ e0.maxAttempts
                omega, fun hc => SCStatus.noConfusion hc⟩
            · split at hmem
              · have h0 := mem_double_update_singleton e0 e' _ _ hmem
                subst h0
                exact ⟨by
                  show e0.attemptCount + 1 ≤ e0.maxAttempts
                  omega, fun hc => SCStatus.noConfusion hc⟩
              · next hmax =>
                have h0 := mem_double_update_singleton e0 e' _ _ hmem
                subst h0
                refine ⟨by
                  show e0.attemptCount + 1 ≤ e0.maxAttempts
                  omega, fun _ => ?_⟩
                show e0.attemptCount + 1 < e0.maxAttempts
                omega
          · have h0 := mem_double_update_singleton e0 e' _ _ hmem
            subst h0
            exact ⟨by
              show e0.attemptCount + 1 ≤ e0.maxAttempts
              omega, fun hc => SCStatus.noConfusion hc⟩
        · -- preconditions hold: dispatch
          split at hmem
          · -- the callback raises: handler on the claimed store
            split at hmem
            · have h0 := mem_update_singleton e' e0 e0.id _ rfl hmem
              subst h0
              exact ⟨by
                show e0.attemptCount + 1 ≤ e0.maxAttempts
                omega, fun hc => SCStatus.noConfusion hc⟩
            · split at hmem
              · have h0 := mem_double_update_singleton e0 e' _ _ hmem
                subst h0
                exact ⟨by
                  show e0.attemptCount + 1 ≤ e0.maxAttempts
                  omega, fun hc => SCStatus.noConfusion hc⟩
              · next hmax =>
                have h0 := mem_double_update_singleton e0 e' _ _ hmem
                subst h0
                refine ⟨by
                  show e0.attemptCount + 1 ≤ e0.maxAttempts
                  omega, fun _ => ?_⟩
                show e0.attemptCount + 1 < e0.maxAttempts
                omega
          · -- the callback returns None: claimed store unchanged
            have h0 := mem_update_singleton e' e0 e0.id _ rfl hmem
            subst h0
            exact ⟨by
              show e0.attemptCount + 1 ≤ e0.maxAttempts
              omega, fun hc => SCStatus.noConfusion hc⟩
          · -- the callback succeeds: claimed store plus the next occurrence
            rcases scheduleNextForUser_mem_elim _ e0.userId s env e' hmem with
              h1 | h2
            · have h0 := mem_update_singleton e' e0 e0.id _ rfl h1
              subst h0
              exact ⟨by
                show e0.attemptCount + 1 ≤ e0.maxAttempts
                omega, fun hc => SCStatus.noConfusion hc⟩
            · obtain ⟨hp1, hp2, hp3⟩ := schedule_next_call_shape env.freshId
                e0.userId s.checkinSchedule s.tzOffset env.nowLocal
                s.checkinEnabled e' h2
              rw [hp2, hp3]
              exact ⟨by omega, fun _ => by omega⟩

/-- C9 witness: the invariant at a concrete entry created by
schedule_next_call (a single Monday 09:00 slot from Monday 00:00 local). -/
theorem c9_witness :
    ({ id := 0, userId := 1, scheduledFor := 32400,
       timeWindow := "morning", status := .pending, attemptCount := 0,
       maxAttempts := 3 } : ScheduledCall).attemptCount ≤
      ({ id := 0, userId := 1, scheduledFor := 32400,
         timeWindow := "morning", status := .pending, attemptCount := 0,
         maxAttempts := 3 } : ScheduledCall).maxAttempts ∧
    (({ id := 0, userId := 1, scheduledFor := 32400,
        timeWindow := "morning", status := .pending, attemptCount := 0,
        maxAttempts := 3 } : ScheduledCall).status = .pending →
      ({ id := 0, userId := 1, scheduledFor := 32400,
         timeWindow := "morning", status := .pending, attemptCount := 0,
         maxAttempts := 3 } : ScheduledCall).attemptCount <
        ({ id := 0, userId := 1, scheduledFor := 32400,
           timeWindow := "morning", status := .pending, attemptCount := 0,
           maxAttempts := 3 } : ScheduledCall).maxAttempts) :=
  c9_attempt_count_bounded
    { id := 0, userId := 1, scheduledFor := 32400, timeWindow := "morning",
      status := .pending, attemptCount := 0, maxAttempts := 3 }
    (ReachableEntry.created 0 1 [{ day := some 1, time := some "09:00" }] 0 0
      true _ (by decide))

end Praxa
